import Mathlib

/-!
# sgsip: socket-address and SIP URI parsing

A shallow embedding of `src/sgsip/sgsip.go` (package `sgsip`) and theorems about it.

* A Go `string` is a finite sequence of bytes; it is embedded as `GoString := List Char`,
  one list element per byte.  Every comparison the program makes is against an ASCII byte,
  and every index is a byte offset, so a position in the list is the Go byte offset.
* Go `int` values (positions, return codes, enum constants, port numbers) are `Int`.
* A slice or index expression evaluated out of range makes a Go program panic.  The embedded
  parsers return `Option`: `none` is a run-time panic, `some (ret, rec)` is a normal return
  with return code `ret` and the output record as the call left it.
* `net.ParseIP` belongs to the Go standard library, not to this repository; the program only
  tests its result against `nil`.  It is a parameter `parseIP : GoString → Bool` of the
  embedding (`true` = a non-nil result).  `netParseIP` further down is an executable
  rendering of the library function, used to instantiate the parameter.
-/

namespace Sgsip

/-! ## Go strings and the `strings` / `strconv` functions the program calls -/

/-- A Go string: a sequence of bytes. -/
abbrev GoString := List Char

/-- The slice expression `s[lo:hi]`; `none` when Go panics (bounds out of range). -/
def slice (s : GoString) (lo hi : Int) : Option GoString :=
  if 0 ≤ lo ∧ lo ≤ hi ∧ hi ≤ (s.length : Int) then
    some ((s.drop lo.toNat).take (hi.toNat - lo.toNat))
  else none

/-- The slice expression `s[lo:]`. -/
def sliceFrom (s : GoString) (lo : Int) : Option GoString :=
  slice s lo s.length

/-- Position of the first occurrence of `sep` in `s`, if any. -/
def indexOpt (sep : GoString) : GoString → Option Nat
  | [] => if sep = [] then some 0 else none
  | c :: cs =>
    if sep.isPrefixOf (c :: cs) then some 0
    else (indexOpt sep cs).map (· + 1)

/-- Go `strings.Index(s, sep)`: byte offset of the first occurrence, `-1` if absent. -/
def Index (s sep : GoString) : Int :=
  match indexOpt sep s with
  | some k => (k : Int)
  | none => -1

/-- Position of the first byte of `s` that occurs in `chars`, if any. -/
def indexAnyOpt (chars : GoString) : GoString → Option Nat
  | [] => none
  | c :: cs => if c ∈ chars then some 0 else (indexAnyOpt chars cs).map (· + 1)

/-- Go `strings.IndexAny(s, chars)`. -/
def IndexAny (s chars : GoString) : Int :=
  match indexAnyOpt chars s with
  | some k => (k : Int)
  | none => -1

/-- Go `strings.SplitN(s, sep, 2)` for a non-empty `sep`: split at the first occurrence. -/
def SplitN2 (s sep : GoString) : List GoString :=
  match indexOpt sep s with
  | none => [s]
  | some m => [s.take m, s.drop (m + sep.length)]

/-- The loop of Go `strings.Split`: cut at successive occurrences of `sep`. -/
def splitLoop (sep : GoString) : Nat → GoString → List GoString
  | 0, s => [s]
  | n + 1, s =>
    match indexOpt sep s with
    | none => [s]
    | some m => s.take m :: splitLoop sep n (s.drop (m + sep.length))

/-- Go `strings.Split(s, sep)` for a non-empty `sep`.  The library runs the loop once per
occurrence of `sep`; as every round consumes at least one byte, `s.length` rounds suffice. -/
def Split (s sep : GoString) : List GoString :=
  splitLoop sep s.length s

/-- Value of a decimal digit byte. -/
def digitVal (c : Char) : Option Nat :=
  if '0' ≤ c ∧ c ≤ '9' then some (c.toNat - 48) else none

/-- Accumulate decimal digits, most significant first; `none` on a non-digit. -/
def parseDigits : GoString → Nat → Option Nat
  | [], acc => some acc
  | c :: cs, acc =>
    match digitVal c with
    | none => none
    | some d => parseDigits cs (acc * 10 + d)

/-- Unsigned magnitude of `strconv.Atoi`: a non-empty run of decimal digits. -/
def atoiMagnitude (ds : GoString) : Option Nat :=
  if ds = [] then none else parseDigits ds 0

/-- Go `strconv.Atoi` with a 64-bit `int`: optional sign, then decimal digits; `none` stands
for a non-nil error (syntax error or value out of range). -/
def Atoi (s : GoString) : Option Int :=
  match s with
  | '-' :: ds =>
    match atoiMagnitude ds with
    | some n => if n ≤ 2 ^ 63 then some (-(n : Int)) else none
    | none => none
  | '+' :: ds =>
    match atoiMagnitude ds with
    | some n => if n < 2 ^ 63 then some (n : Int) else none
    | none => none
  | ds =>
    match atoiMagnitude ds with
    | some n => if n < 2 ^ 63 then some (n : Int) else none
    | none => none

/-! ## Constants and records (sgsip.go lines 10-64) -/

def SGSIPRetOK : Int := 0
def SGSIPRetErr : Int := -1

def ProtoNONE : Int := 0
def ProtoUDP : Int := 1
def ProtoTCP : Int := 2
def ProtoTLS : Int := 3
def ProtoSCTP : Int := 4
def ProtoWS : Int := 5
def ProtoWSS : Int := 6

def AFNONE : Int := 0
def AFIPv4 : Int := 1
def AFIPv6 : Int := 2
def AFHost : Int := 3

def SchemaNONE : Int := 0
def SchemaSIP : Int := 1
def SchemaSIPS : Int := 2
def SchemaTEL : Int := 3

structure SGSIPSocketAddress where
  val : GoString
  proto : GoString
  addr : GoString
  port : GoString
  portno : Int
  atype : Int
  protoid : Int
  deriving DecidableEq, Repr

structure SGSIPURI where
  val : GoString
  schema : GoString
  schemaid : Int
  user : GoString
  addr : GoString
  port : GoString
  portno : Int
  params : GoString
  uparams : GoString
  proto : GoString
  protoid : Int
  atype : Int
  deriving DecidableEq, Repr

/-- The zero value of `SGSIPSocketAddress`: what `SGSIPSocketAddress{}` denotes in Go. -/
def emptySocketAddress : SGSIPSocketAddress :=
  { val := [], proto := [], addr := [], port := [], portno := 0, atype := 0, protoid := 0 }

/-- The zero value of `SGSIPURI`. -/
def emptyURI : SGSIPURI :=
  { val := [], schema := [], schemaid := 0, user := [], addr := [], port := [], portno := 0,
    params := [], uparams := [], proto := [], protoid := 0, atype := 0 }

/-! ## SGAddrType (lines 67-80) -/

/-- The `for` loop of `SGAddrType`: the first `.` or `:` decides. -/
def addrTypeScan : GoString → Int
  | [] => AFNONE
  | c :: cs =>
    if c = '.' then AFIPv4
    else if c = ':' then AFIPv6
    else addrTypeScan cs

/-- Quick detection of ip/address type. -/
def SGAddrType (parseIP : GoString → Bool) (addr : GoString) : Int :=
  if parseIP addr = false then AFHost
  else addrTypeScan addr

/-! ## SGSIPSetProto, SGSIPSetSchema (lines 83-131)

The two pointer arguments are passed in and handed back: the result is
`(return code, *protoval, *protoid)`. -/

def SGSIPSetProto (protostr : GoString) (protoval : GoString) (protoid : Int) :
    Int × GoString × Int :=
  if protostr = "udp".toList ∨ protostr = "UDP".toList then
    (SGSIPRetOK, "udp".toList, ProtoUDP)
  else if protostr = "tcp".toList ∨ protostr = "TCP".toList then
    (SGSIPRetOK, "tcp".toList, ProtoTCP)
  else if protostr = "tls".toList ∨ protostr = "TLS".toList then
    (SGSIPRetOK, "tls".toList, ProtoTLS)
  else if protostr = "sctp".toList ∨ protostr = "SCTP".toList then
    (SGSIPRetOK, "sctp".toList, ProtoSCTP)
  else if protostr = "ws".toList ∨ protostr = "WS".toList then
    (SGSIPRetOK, "ws".toList, ProtoWS)
  else if protostr = "wss".toList ∨ protostr = "WSS".toList then
    (SGSIPRetOK, "wss".toList, ProtoWSS)
  else (SGSIPRetErr, protoval, protoid)

def SGSIPSetSchema (schemastr : GoString) (schemaval : GoString) (schemaid : Int) :
    Int × GoString × Int :=
  if schemastr = "sip".toList ∨ schemastr = "SIP".toList then
    (SGSIPRetOK, "sip".toList, SchemaSIP)
  else if schemastr = "sips".toList ∨ schemastr = "SIPS".toList then
    (SGSIPRetOK, "sips".toList, SchemaSIPS)
  else if schemastr = "tel".toList ∨ schemastr = "TEL".toList then
    (SGSIPRetOK, "tel".toList, SchemaTEL)
  else (SGSIPRetErr, schemaval, schemaid)

/-! ## SGSIPParseSocketAddress (lines 134-202) -/

/-- Lines 172-201: the address and port part, after the protocol prefix has been handled.
`sockaddr` already carries `proto` and `protoid`. -/
def parseSocketAddrPort (parseIP : GoString → Bool) (sockstr strProto strAddrPort : GoString)
    (sockaddr : SGSIPSocketAddress) : Option (Int × SGSIPSocketAddress) := do
  let first ← slice strAddrPort 0 1
  if first = "[".toList then
    let strArray := SplitN2 strAddrPort "]".toList
    -- `strProto == "" && strArray[1][0:1] != ":"`, the right operand only if the left holds
    let noPort ←
      (if strProto = [] then do
        let a1 ← strArray[1]?
        let c ← slice a1 0 1
        pure (decide (c ≠ ":".toList))
      else pure false)
    if noPort then
      pure (SGSIPRetErr, sockaddr)
    else do
      let a1 ← strArray[1]?
      let port ← sliceFrom a1 1
      let sockaddr := { sockaddr with port := port }
      match Atoi sockaddr.port with
      | none => pure (SGSIPRetErr, sockaddr)
      | some i => do
        let sockaddr := { sockaddr with portno := i }
        let a0 ← strArray[0]?
        let sockaddr := { sockaddr with addr := a0 ++ "]".toList }
        let sockaddr := { sockaddr with atype := SGAddrType parseIP sockaddr.addr }
        if sockaddr.atype ≠ AFIPv6 then
          pure (SGSIPRetErr, sockaddr)
        else
          pure (SGSIPRetOK, { sockaddr with val := sockstr })
  else do
    let strArray := SplitN2 strAddrPort ":".toList
    let a1 ← strArray[1]?
    let sockaddr := { sockaddr with port := a1 }
    match Atoi sockaddr.port with
    | none => pure (SGSIPRetErr, sockaddr)
    | some i => do
      let sockaddr := { sockaddr with portno := i }
      let a0 ← strArray[0]?
      let sockaddr := { sockaddr with addr := a0 }
      let sockaddr := { sockaddr with atype := SGAddrType parseIP sockaddr.addr }
      pure (SGSIPRetOK, { sockaddr with val := sockstr })

def SGSIPParseSocketAddress (parseIP : GoString → Bool) (sockstr : GoString)
    (sockaddr : SGSIPSocketAddress) : Option (Int × SGSIPSocketAddress) := do
  let first ← slice sockstr 0 1
  -- `sockstr[0:1] == "[" && sockstr[len(sockstr)-1:] == "]"`
  let wrapped ←
    (if first = "[".toList then do
      let last ← sliceFrom sockstr ((sockstr.length : Int) - 1)
      pure (decide (last = "]".toList))
    else pure false)
  if wrapped then
    -- assuming only IPv6 address -- fill with defaults
    let sockaddr := { sockaddr with atype := SGAddrType parseIP sockaddr.addr }
    if sockaddr.atype ≠ AFIPv6 then
      pure (SGSIPRetErr, sockaddr)
    else
      pure (SGSIPRetOK,
        { sockaddr with
          val := sockstr, proto := "udp".toList, protoid := ProtoUDP, addr := sockstr,
          port := "5060".toList, portno := 5060 })
  else
    let strArray := SplitN2 sockstr ":".toList
    if strArray.length = 1 then
      -- only host address -- fill with defaults
      let sockaddr :=
        { sockaddr with
          val := sockstr, proto := "udp".toList, protoid := ProtoUDP, addr := sockstr,
          port := "5060".toList, portno := 5060 }
      pure (SGSIPRetOK, { sockaddr with atype := SGAddrType parseIP sockaddr.addr })
    else do
      let strProto ← strArray[0]?
      let strAddrPort ← strArray[1]?
      let (ret, proto, protoid) := SGSIPSetProto strProto sockaddr.proto sockaddr.protoid
      let sockaddr := { sockaddr with proto := proto, protoid := protoid }
      if ret ≠ SGSIPRetOK then
        -- first token is not proto - assume addr:port
        parseSocketAddrPort parseIP sockstr [] sockstr
          { sockaddr with proto := "udp".toList, protoid := ProtoUDP }
      else
        parseSocketAddrPort parseIP sockstr strProto strAddrPort sockaddr

/-! ## SGSIPParseURI (lines 205-343)

The function is embedded in stages, one per block of the source, each handing the
record on to the next.  The diagnostic `fmt.Printf` of line 291 writes to standard output
only and is left out. -/

/-- Lines 320-342: default transport, then the parameter list and its `;transport=`. -/
def parseURIParams (uristr pParams : GoString) (uri : SGSIPURI) :
    Option (Int × SGSIPURI) := do
  let uri := { uri with proto := "udp".toList, protoid := ProtoUDP }
  if pParams.length > 0 then
    let params ← sliceFrom pParams 1
    let uri := { uri with params := params }
    let strArray := Split pParams ";transport=".toList
    if strArray.length = 1 then
      pure (SGSIPRetOK, { uri with val := uristr })
    else do
      let a1 ← strArray[1]?
      let scPos := Index a1 ";".toList
      let pProto ← (if scPos < 0 then pure a1 else slice a1 0 scPos)
      let (ret, proto, protoid) := SGSIPSetProto pProto uri.proto uri.protoid
      let uri := { uri with proto := proto, protoid := protoid }
      if ret ≠ SGSIPRetOK then
        pure (SGSIPRetErr, uri)
      else
        pure (SGSIPRetOK, { uri with val := uristr })
  else
    pure (SGSIPRetOK, { uri with val := uristr })

/-- Lines 292-319: the text after the host, a port (`:`) or a parameter list (`;`). -/
def parseURIPortParams (uristr pPortParams : GoString) (uri : SGSIPURI) :
    Option (Int × SGSIPURI) := do
  let first ← slice pPortParams 0 1
  if first = ":".toList then
    -- port
    let scPos := Index pPortParams ";".toList
    let pPort ← (if scPos < 0 then sliceFrom pPortParams 1 else slice pPortParams 1 scPos)
    match Atoi pPort with
    | none => pure (SGSIPRetErr, uri)
    | some i =>
      if i ≤ 0 then
        pure (SGSIPRetErr, uri)
      else
        let uri := { uri with port := pPort, portno := i }
        if scPos < 0 then
          pure (SGSIPRetOK,
            { uri with proto := "udp".toList, protoid := ProtoUDP, val := uristr })
        else do
          let pParams ← sliceFrom pPortParams scPos
          parseURIParams uristr pParams uri
  else if first = ";".toList then
    parseURIParams uristr pPortParams uri
  else
    pure (SGSIPRetErr, uri)

/-- Lines 251-290: the host part; `colPos` and `scPos` are the positions found in the
whole remainder after the scheme (lines 216-217). -/
def parseURIHost (parseIP : GoString → Bool) (uristr : GoString) (colPos scPos : Int)
    (pHostPP : GoString) (uri : SGSIPURI) : Option (Int × SGSIPURI) := do
  if colPos < 0 ∧ scPos < 0 then
    -- no port, no params
    let uri :=
      { uri with
        addr := pHostPP, proto := "udp".toList, protoid := ProtoUDP,
        port := "5060".toList, portno := 5060 }
    pure (SGSIPRetOK, { uri with atype := SGAddrType parseIP uri.addr, val := uristr })
  else do
    let first ← slice pHostPP 0 1
    if first = "[".toList then
      let last ← sliceFrom pHostPP ((pHostPP.length : Int) - 1)
      if last = "]".toList then
        -- only IPv6 address
        let uri :=
          { uri with
            addr := pHostPP, proto := "udp".toList, protoid := ProtoUDP,
            port := "5060".toList, portno := 5060 }
        let uri := { uri with atype := SGAddrType parseIP uri.addr }
        if uri.atype ≠ AFIPv6 then
          pure (SGSIPRetErr, uri)
        else
          pure (SGSIPRetOK, { uri with val := uristr })
      else do
        let strArray := SplitN2 pHostPP "]".toList
        let a0 ← strArray[0]?
        let uri := { uri with addr := a0 ++ "]".toList }
        let inner ← slice uri.addr 1 ((uri.addr.length : Int) - 1)
        let uri := { uri with atype := SGAddrType parseIP inner }
        if uri.atype ≠ AFIPv6 then
          pure (SGSIPRetErr, uri)
        else do
          let pPortParams ← strArray[1]?
          parseURIPortParams uristr pPortParams uri
    else do
      let scPos := IndexAny pHostPP ":;".toList
      let addr ← slice pHostPP 0 scPos
      let uri := { uri with addr := addr }
      let uri := { uri with atype := SGAddrType parseIP uri.addr }
      let pPortParams ← sliceFrom pHostPP scPos
      parseURIPortParams uristr pPortParams uri

/-- Lines 215-250: the three positions in the remainder after the scheme, then the user
part in front of `@`. -/
def parseURIUser (parseIP : GoString → Bool) (uristr rest : GoString) (uri : SGSIPURI) :
    Option (Int × SGSIPURI) :=
  let atPos := Index rest "@".toList
  let colPos := Index rest ":".toList
  let scPos := Index rest ";".toList
  if atPos = 0 then
    -- empty user part
    pure (SGSIPRetErr, uri)
  else if atPos < 0 ∧ colPos < 0 ∧ scPos < 0 then
    -- no user, no port, no parameters
    let uri :=
      { uri with
        addr := rest, proto := "udp".toList, protoid := ProtoUDP,
        port := "5060".toList, portno := 5060 }
    pure (SGSIPRetOK, { uri with atype := SGAddrType parseIP uri.addr, val := uristr })
  else if atPos > 0 then do
    let pUser ← slice rest 0 atPos
    let pHostPP ← sliceFrom rest (atPos + 1)
    let uScPos := Index pUser ";".toList
    if uScPos = 0 then
      -- empty user part
      pure (SGSIPRetErr, uri)
    else do
      let uri ←
        (if uScPos < 0 then pure { uri with user := pUser }
        else do
          let user ← slice pUser 0 (uScPos + 1)
          let uparams ← sliceFrom pUser (uScPos + 1)
          pure { uri with user := user, uparams := uparams })
      parseURIHost parseIP uristr colPos scPos pHostPP uri
  else
    parseURIHost parseIP uristr colPos scPos rest uri

/-- Lines 205-214, then the stages above; `strArray[1]` is the remainder after the scheme. -/
def SGSIPParseURI (parseIP : GoString → Bool) (uristr : GoString) (uri : SGSIPURI) :
    Option (Int × SGSIPURI) := do
  let strArray := SplitN2 uristr ":".toList
  if strArray.length < 2 then
    pure (SGSIPRetErr, uri)
  else do
    let a0 ← strArray[0]?
    let (ret, schema, schemaid) := SGSIPSetSchema a0 uri.schema uri.schemaid
    let uri := { uri with schema := schema, schemaid := schemaid }
    if ret ≠ SGSIPRetOK then
      pure (ret, uri)
    else do
      let a1 ← strArray[1]?
      parseURIUser parseIP uristr a1 uri

/-! ## The standard library's `net.ParseIP`

An executable rendering of Go's `net.ParseIP` (`netip.ParseAddr` restricted to addresses
without a zone), reduced to the one bit the program looks at: whether the result is
non-nil.  It instantiates the `parseIP` parameter at concrete inputs. -/

/-- The IPv4 field loop: four dot-separated decimal octets, each at most 255 and without a
leading zero.  `fieldStart` says that no digit of the current octet has been read yet. -/
def parseIPv4Fields : GoString → (val pos digLen : Nat) → (fieldStart : Bool) → Bool
  | [], _, pos, _, _ => decide (3 ≤ pos)
  | c :: cs, val, pos, digLen, fieldStart =>
    if '0' ≤ c ∧ c ≤ '9' then
      if digLen = 1 ∧ val = 0 then false
      else if val * 10 + (c.toNat - 48) > 255 then false
      else parseIPv4Fields cs (val * 10 + (c.toNat - 48)) pos (digLen + 1) false
    else if c = '.' then
      if fieldStart ∨ cs = [] then false
      else if pos = 3 then false
      else parseIPv4Fields cs 0 (pos + 1) 0 true
    else false

def isHexDigit (c : Char) : Bool :=
  ('0' ≤ c ∧ c ≤ '9') ∨ ('a' ≤ c ∧ c ≤ 'f') ∨ ('A' ≤ c ∧ c ≤ 'F')

/-- Read the hex digits of one IPv6 group: the number read and the rest of the text;
`none` when the group has more than four digits. -/
def hexGroup : GoString → Nat → Option (Nat × GoString)
  | [], off => some (off, [])
  | c :: cs, off =>
    if isHexDigit c then
      if off > 3 then none else hexGroup cs (off + 1)
    else some (off, c :: cs)

/-- The group loop of the IPv6 parser.  `i` counts the address bytes filled so far and
`ellipsis` is the position of a `::` already seen.  The result is the state at loop exit. -/
def parseIPv6Loop : Nat → GoString → Nat → Option Nat → Option (GoString × Nat × Option Nat)
  | 0, s, i, ellipsis => some (s, i, ellipsis)
  | fuel + 1, s, i, ellipsis =>
    if 16 ≤ i then some (s, i, ellipsis)
    else
      match hexGroup s 0 with
      | none => none
      | some (off, rest) =>
        if off = 0 then none
        else
          match rest with
          | [] => some ([], i + 2, ellipsis)
          | c :: rest1 =>
            if c = '.' then
              -- trailing embedded IPv4
              if ellipsis = none ∧ i ≠ 12 then none
              else if i + 4 > 16 then none
              else if parseIPv4Fields s 0 0 0 true then some ([], i + 4, ellipsis)
              else none
            else if c ≠ ':' then none
            else
              match rest1 with
              | [] => none
              | d :: rest2 =>
                if d = ':' then
                  if ellipsis.isSome then none
                  else if rest2 = [] then some ([], i + 2, some (i + 2))
                  else parseIPv6Loop fuel rest2 (i + 2) (some (i + 2))
                else parseIPv6Loop fuel (d :: rest2) (i + 2) ellipsis

/-- The IPv6 parser; a zone (`%`) makes `net.ParseIP` return nil. -/
def parseIPv6 (s : GoString) : Bool :=
  if '%' ∈ s then false
  else
    let body : GoString × Option Nat :=
      match s with
      | ':' :: ':' :: rest => (rest, some 0)
      | _ => (s, none)
    if body.2.isSome ∧ body.1 = [] then true
    else
      match parseIPv6Loop 8 body.1 0 body.2 with
      | none => false
      | some (rest, i, ellipsis) =>
        if rest ≠ [] then false
        else if i < 16 then ellipsis.isSome
        else !ellipsis.isSome

/-- The dispatch of `netip.ParseAddr`: the first `.`, `:` or `%` selects the parser. -/
def parseAddrDispatch (whole : GoString) : GoString → Bool
  | [] => false
  | c :: cs =>
    if c = '.' then parseIPv4Fields whole 0 0 0 true
    else if c = ':' then parseIPv6 whole
    else if c = '%' then false
    else parseAddrDispatch whole cs

/-- Whether `net.ParseIP(s)` is non-nil. -/
def netParseIP (s : GoString) : Bool :=
  parseAddrDispatch s s

/-! ## Vocabulary of the specification -/

/-- The twelve protocol spellings of the specification's ProtocolTable. -/
def protoSpellings : List GoString :=
  ["udp".toList, "UDP".toList, "tcp".toList, "TCP".toList, "tls".toList, "TLS".toList,
   "sctp".toList, "SCTP".toList, "ws".toList, "WS".toList, "wss".toList, "WSS".toList]

/-- The six scheme spellings of the specification's SchemeTable. -/
def schemeSpellings : List GoString :=
  ["sip".toList, "SIP".toList, "sips".toList, "SIPS".toList, "tel".toList, "TEL".toList]

/-- Lower-case form of a token. -/
def lowerCase (s : GoString) : GoString := s.map Char.toLower

/-- The id the specification attaches to a canonical (lower-case) protocol name. -/
def protoIdOf (canon : GoString) : Int :=
  if canon = "udp".toList then ProtoUDP
  else if canon = "tcp".toList then ProtoTCP
  else if canon = "tls".toList then ProtoTLS
  else if canon = "sctp".toList then ProtoSCTP
  else if canon = "ws".toList then ProtoWS
  else if canon = "wss".toList then ProtoWSS
  else ProtoNONE

/-- The id the specification attaches to a canonical (lower-case) scheme name. -/
def schemaIdOf (canon : GoString) : Int :=
  if canon = "sip".toList then SchemaSIP
  else if canon = "sips".toList then SchemaSIPS
  else if canon = "tel".toList then SchemaTEL
  else SchemaNONE

/-- A string of decimal digits. -/
def IsDigits (D : GoString) : Prop := ∀ c ∈ D, c.isDigit = true

instance (D : GoString) : Decidable (IsDigits D) := by unfold IsDigits; infer_instance

/-- The number a string of decimal digits denotes. -/
def decimalValue (D : GoString) : Nat :=
  D.foldl (fun acc c => acc * 10 + (c.toNat - '0'.toNat)) 0

/-- The address classifier as the specification words it: `Host` when the token is no IP
literal; otherwise the first `.` or `:` met from the left decides between `IPv4` and
`IPv6`, and the result is `None` when the token holds neither. -/
def classifyRef (parseIP : GoString → Bool) (token : GoString) : Int :=
  if parseIP token = false then AFHost
  else
    match token.find? (fun c => c = '.' || c = ':') with
    | some c => if c = '.' then AFIPv4 else AFIPv6
    | none => AFNONE

/-! ## Lemmas on the string primitives -/

theorem slice_zero_one_cons (c : Char) (s : GoString) : slice (c :: s) 0 1 = some [c] := by
  simp [slice]

theorem sliceFrom_one_cons (c : Char) (s : GoString) : sliceFrom (c :: s) 1 = some s := by
  simp [sliceFrom, slice]

theorem slice_upto (pre post : GoString) :
    slice (pre ++ post) 0 (pre.length : Int) = some pre := by
  simp [slice]

theorem sliceFrom_append (pre post : GoString) :
    sliceFrom (pre ++ post) (pre.length : Int) = some post := by
  simp [sliceFrom, slice]
  omega

theorem sliceFrom_length_sub_one (s : GoString) (h : s ≠ []) :
    sliceFrom s ((s.length : Int) - 1) = some [s.getLast h] := by
  rcases List.eq_nil_or_concat s with h0 | ⟨ys, a, rfl⟩
  · exact absurd h0 h
  · simp [sliceFrom, slice]

theorem indexOpt_singleton_of_not_mem (c : Char) :
    ∀ s : GoString, c ∉ s → indexOpt [c] s = none := by
  intro s
  induction s with
  | nil => intro _; simp [indexOpt]
  | cons x xs ih =>
    intro h
    simp only [List.mem_cons, not_or] at h
    simp [indexOpt, List.isPrefixOf, h.1, ih h.2]

theorem indexOpt_singleton_append (c : Char) :
    ∀ pre post : GoString, c ∉ pre → indexOpt [c] (pre ++ c :: post) = some pre.length := by
  intro pre
  induction pre with
  | nil => intro post _; simp [indexOpt, List.isPrefixOf]
  | cons x xs ih =>
    intro post h
    simp only [List.mem_cons, not_or] at h
    simp [indexOpt, List.isPrefixOf, h.1, ih post h.2]

theorem SplitN2_of_not_mem (c : Char) (s : GoString) (h : c ∉ s) : SplitN2 s [c] = [s] := by
  simp [SplitN2, indexOpt_singleton_of_not_mem c s h]

theorem SplitN2_append (c : Char) (pre post : GoString) (h : c ∉ pre) :
    SplitN2 (pre ++ c :: post) [c] = [pre, post] := by
  simp [SplitN2, indexOpt_singleton_append c pre post h]

/-! ## Lemmas on `strconv.Atoi` -/

theorem digitVal_of_isDigit (c : Char) (h : c.isDigit = true) :
    digitVal c = some (c.toNat - '0'.toNat) := by
  simp [Char.isDigit] at h
  simp [digitVal, Char.le_def, h]

theorem isDigit_toNat_le (c : Char) (h : c.isDigit = true) : c.toNat - '0'.toNat ≤ 9 := by
  simp [Char.isDigit] at h
  have h2 := h.2
  have h3 : c.val.toNat ≤ (57 : UInt32).toNat := UInt32.le_def.mp h2
  have h4 : (57 : UInt32).toNat = 57 := by decide
  simp only [Char.toNat]
  have h5 : ('0' : Char).val.toNat = 48 := by decide
  omega

theorem parseDigits_eq (D : GoString) : ∀ acc, IsDigits D →
    parseDigits D acc = some (D.foldl (fun a c => a * 10 + (c.toNat - '0'.toNat)) acc) := by
  induction D with
  | nil => intro acc _; rfl
  | cons c cs ih =>
    intro acc h
    have hc : c.isDigit = true := h c (List.mem_cons_self _ _)
    have hcs : IsDigits cs := fun x hx => h x (List.mem_cons_of_mem _ hx)
    simp [parseDigits, digitVal_of_isDigit c hc, ih _ hcs]

theorem foldl_digits_lt (D : GoString) : ∀ acc, IsDigits D →
    D.foldl (fun a c => a * 10 + (c.toNat - '0'.toNat)) acc < (acc + 1) * 10 ^ D.length := by
  induction D with
  | nil => intro acc _; simp
  | cons c cs ih =>
    intro acc h
    have hc : c.isDigit = true := h c (List.mem_cons_self _ _)
    have hcs : IsDigits cs := fun x hx => h x (List.mem_cons_of_mem _ hx)
    have h9 := isDigit_toNat_le c hc
    have := ih (acc * 10 + (c.toNat - '0'.toNat)) hcs
    simp only [List.foldl_cons, List.length_cons]
    calc _ < (acc * 10 + (c.toNat - '0'.toNat) + 1) * 10 ^ cs.length := this
      _ ≤ ((acc + 1) * 10) * 10 ^ cs.length := by
          apply Nat.mul_le_mul_right; omega
      _ = (acc + 1) * 10 ^ (cs.length + 1) := by ring

theorem decimalValue_lt (D : GoString) (h : IsDigits D) : decimalValue D < 10 ^ D.length := by
  have := foldl_digits_lt D 0 h
  simpa [decimalValue] using this

theorem Atoi_digits (D : GoString) (hne : D ≠ []) (hdig : IsDigits D) (hlen : D.length ≤ 9) :
    Atoi D = some (decimalValue D : Int) := by
  have hv : decimalValue D < 2 ^ 63 := by
    have h1 := decimalValue_lt D hdig
    have h2 : 10 ^ D.length ≤ 10 ^ 9 := Nat.pow_le_pow_right (by norm_num) hlen
    have h3 : (10:Nat) ^ 9 < 2 ^ 63 := by norm_num
    omega
  have hmag : atoiMagnitude D = some (decimalValue D) := by
    simp [atoiMagnitude, hne, parseDigits_eq D 0 hdig, decimalValue]
  match D, hne with
  | c :: cs, _ =>
    have hc : c.isDigit = true := hdig c (List.mem_cons_self _ _)
    have hm : c ≠ '-' := by rintro rfl; simp [Char.isDigit] at hc
    have hp : c ≠ '+' := by rintro rfl; simp [Char.isDigit] at hc
    unfold Atoi
    split
    · simp_all
    · simp_all
    · have hv2 : decimalValue (c :: cs) < 9223372036854775808 := by simpa using hv
      simp [hmag, hv2]

/-! ## Lemmas on the protocol table and the socket-address stages -/

theorem protoSpelling_facts (P : GoString) (h : P ∈ protoSpellings) :
    (∃ c t, P = c :: t ∧ c ≠ '[') ∧ ':' ∉ P ∧ ';' ∉ P ∧
    ∀ pv pid, SGSIPSetProto P pv pid = (SGSIPRetOK, lowerCase P, protoIdOf (lowerCase P)) := by
  simp only [protoSpellings, List.mem_cons, List.mem_singleton, List.not_mem_nil, or_false] at h
  rcases h with rfl | rfl | rfl | rfl | rfl | rfl | rfl | rfl | rfl | rfl | rfl | rfl <;>
    exact ⟨⟨_, _, rfl, by decide⟩, by decide, by decide, fun _ _ => rfl⟩

theorem SGSIPSetProto_of_not_mem (t pv : GoString) (pid : Int) (h : t ∉ protoSpellings) :
    SGSIPSetProto t pv pid = (SGSIPRetErr, pv, pid) := by
  simp [protoSpellings] at h
  simp [SGSIPSetProto, h]

theorem SGSIPSetProto_ok_iff (t pv : GoString) (pid : Int) :
    (SGSIPSetProto t pv pid).1 = SGSIPRetOK ↔ t ∈ protoSpellings := by
  by_cases h : t ∈ protoSpellings
  · simp [h, (protoSpelling_facts t h).2.2.2]
  · simp [h, SGSIPSetProto_of_not_mem t pv pid h, SGSIPRetErr, SGSIPRetOK]

theorem parseSocketAddrPort_host (parseIP : GoString → Bool) (sockstr strProto H D : GoString)
    (sa : SGSIPSocketAddress) (hH : ':' ∉ H) (hb : H.head? ≠ some '[')
    (hD : D ≠ []) (hdig : IsDigits D) (hlen : D.length ≤ 9) :
    parseSocketAddrPort parseIP sockstr strProto (H ++ ':' :: D) sa =
      some (SGSIPRetOK,
        { val := sockstr, proto := sa.proto, addr := H, port := D,
          portno := (decimalValue D : Int), atype := SGAddrType parseIP H,
          protoid := sa.protoid }) := by
  have hsplit := SplitN2_append ':' H D hH
  have hatoi := Atoi_digits D hD hdig hlen
  cases H with
  | nil =>
    simp only [List.nil_append] at hsplit ⊢
    simp [parseSocketAddrPort, slice_zero_one_cons, hsplit, hatoi]
  | cons c t =>
    have hc : c ≠ '[' := by simpa using hb
    simp only [List.cons_append] at hsplit ⊢
    simp [parseSocketAddrPort, slice_zero_one_cons, hsplit, hatoi, hc]

/-! ## A successful parse echoes its input in `val` -/

theorem parseSocketAddrPort_val (parseIP : GoString → Bool)
    (sockstr strProto strAddrPort : GoString) (sa r : SGSIPSocketAddress)
    (h : parseSocketAddrPort parseIP sockstr strProto strAddrPort sa = some (SGSIPRetOK, r)) :
    r.val = sockstr := by
  unfold parseSocketAddrPort at h
  simp only [Option.bind_eq_bind, Option.pure_def] at h
  iterate 10
    all_goals
      try first
        | (rw [Option.bind_eq_some] at h; obtain ⟨_, -, h⟩ := h)
        | (split at h)
  all_goals first
    | (simp [SGSIPRetOK, SGSIPRetErr] at h; done)
    | (simp at h; rw [← h])

theorem SGSIPParseSocketAddress_val (parseIP : GoString → Bool) (sockstr : GoString)
    (sa r : SGSIPSocketAddress)
    (h : SGSIPParseSocketAddress parseIP sockstr sa = some (SGSIPRetOK, r)) :
    r.val = sockstr := by
  unfold SGSIPParseSocketAddress at h
  simp only [Option.bind_eq_bind, Option.pure_def] at h
  iterate 10
    all_goals
      try first
        | (rw [Option.bind_eq_some] at h; obtain ⟨_, -, h⟩ := h)
        | (split at h)
  all_goals first
    | (simp [SGSIPRetOK, SGSIPRetErr] at h; done)
    | (simp at h; rw [← h])
    | exact parseSocketAddrPort_val _ _ _ _ _ _ h

theorem parseURIParams_val (uristr pParams : GoString) (uri r : SGSIPURI)
    (h : parseURIParams uristr pParams uri = some (SGSIPRetOK, r)) : r.val = uristr := by
  unfold parseURIParams at h
  simp only [Option.bind_eq_bind, Option.pure_def] at h
  iterate 10
    all_goals
      try first
        | (rw [Option.bind_eq_some] at h; obtain ⟨_, -, h⟩ := h)
        | (split at h)
  all_goals first
    | (simp [SGSIPRetOK, SGSIPRetErr] at h; done)
    | (simp at h; rw [← h])

theorem parseURIPortParams_val (uristr pPortParams : GoString) (uri r : SGSIPURI)
    (h : parseURIPortParams uristr pPortParams uri = some (SGSIPRetOK, r)) :
    r.val = uristr := by
  unfold parseURIPortParams at h
  simp only [Option.bind_eq_bind, Option.pure_def] at h
  iterate 10
    all_goals
      try first
        | (rw [Option.bind_eq_some] at h; obtain ⟨_, -, h⟩ := h)
        | (split at h)
  all_goals first
    | (simp [SGSIPRetOK, SGSIPRetErr] at h; done)
    | (simp at h; rw [← h])
    | exact parseURIParams_val _ _ _ _ h

theorem parseURIHost_val (parseIP : GoString → Bool) (uristr : GoString) (colPos scPos : Int)
    (pHostPP : GoString) (uri r : SGSIPURI)
    (h : parseURIHost parseIP uristr colPos scPos pHostPP uri = some (SGSIPRetOK, r)) :
    r.val = uristr := by
  unfold parseURIHost at h
  simp only [Option.bind_eq_bind, Option.pure_def] at h
  iterate 10
    all_goals
      try first
        | (rw [Option.bind_eq_some] at h; obtain ⟨_, -, h⟩ := h)
        | (split at h)
  all_goals first
    | (simp [SGSIPRetOK, SGSIPRetErr] at h; done)
    | (simp at h; rw [← h])
    | exact parseURIPortParams_val _ _ _ _ h

theorem parseURIUser_val (parseIP : GoString → Bool) (uristr rest : GoString) (uri r : SGSIPURI)
    (h : parseURIUser parseIP uristr rest uri = some (SGSIPRetOK, r)) : r.val = uristr := by
  unfold parseURIUser at h
  dsimp only at h
  simp only [Option.bind_eq_bind] at h
  by_cases h3 : Index rest "@".toList = 0
  · rw [if_pos h3] at h
    simp [SGSIPRetOK, SGSIPRetErr] at h
  rw [if_neg h3] at h
  by_cases h4 : Index rest "@".toList < 0 ∧ Index rest ":".toList < 0 ∧ Index rest ";".toList < 0
  · rw [if_pos h4] at h
    simp at h
    rw [← h]
  rw [if_neg h4] at h
  by_cases h5 : Index rest "@".toList > 0
  · rw [if_pos h5, Option.bind_eq_some] at h
    obtain ⟨pUser, -, h⟩ := h
    rw [Option.bind_eq_some] at h
    obtain ⟨pHostPP, -, h⟩ := h
    by_cases h6 : Index pUser ";".toList = 0
    · rw [if_pos h6] at h
      simp [SGSIPRetOK, SGSIPRetErr] at h
    rw [if_neg h6, Option.bind_eq_some] at h
    obtain ⟨uri2, -, h⟩ := h
    exact parseURIHost_val _ _ _ _ _ _ _ h
  · rw [if_neg h5] at h
    exact parseURIHost_val _ _ _ _ _ _ _ h

theorem SGSIPParseURI_val (parseIP : GoString → Bool) (uristr : GoString) (uri r : SGSIPURI)
    (h : SGSIPParseURI parseIP uristr uri = some (SGSIPRetOK, r)) : r.val = uristr := by
  unfold SGSIPParseURI at h
  dsimp only at h
  simp only [Option.bind_eq_bind] at h
  by_cases h1 : (SplitN2 uristr ":".toList).length < 2
  · rw [if_pos h1] at h
    simp [SGSIPRetOK, SGSIPRetErr] at h
  rw [if_neg h1, Option.bind_eq_some] at h
  obtain ⟨a0, -, h⟩ := h
  by_cases h2 : (SGSIPSetSchema a0 uri.schema uri.schemaid).1 ≠ SGSIPRetOK
  · rw [if_pos h2] at h
    simp at h
    exact absurd h.1 h2
  rw [if_neg h2, Option.bind_eq_some] at h
  obtain ⟨a1, -, h⟩ := h
  exact parseURIUser_val _ _ _ _ _ h

/-! ## Lemmas on `strings.Index` and `strings.IndexAny` -/

theorem Index_singleton_append (c : Char) (pre post : GoString) (h : c ∉ pre) :
    Index (pre ++ c :: post) [c] = (pre.length : Int) := by
  simp [Index, indexOpt_singleton_append c pre post h]

theorem Index_singleton_of_not_mem (c : Char) (s : GoString) (h : c ∉ s) :
    Index s [c] = -1 := by
  simp [Index, indexOpt_singleton_of_not_mem c s h]

theorem Index_singleton_nonneg (c : Char) (s : GoString) (h : c ∈ s) : 0 ≤ Index s [c] := by
  obtain ⟨pre, post, rfl, hpre⟩ : ∃ pre post, s = pre ++ c :: post ∧ c ∉ pre := by
    induction s with
    | nil => simp at h
    | cons x xs ih =>
      by_cases hx : c = x
      · exact ⟨[], xs, by simp [hx], by simp⟩
      · have hxs : c ∈ xs := by
          rcases List.mem_cons.mp h with h1 | h1
          · exact absurd h1 hx
          · exact h1
        obtain ⟨pre, post, rfl, hpre⟩ := ih hxs
        exact ⟨x :: pre, post, by simp, by simp [hx, hpre]⟩
  rw [Index_singleton_append c pre post hpre]
  exact Int.natCast_nonneg _

theorem indexAnyOpt_append (chars : GoString) (c : Char) (hc : c ∈ chars) :
    ∀ pre post : GoString, (∀ x ∈ pre, x ∉ chars) →
      indexAnyOpt chars (pre ++ c :: post) = some pre.length := by
  intro pre
  induction pre with
  | nil => intro post _; simp [indexAnyOpt, hc]
  | cons x xs ih =>
    intro post h
    have hx : x ∉ chars := h x (List.mem_cons_self _ _)
    have hxs : ∀ y ∈ xs, y ∉ chars := fun y hy => h y (List.mem_cons_of_mem _ hy)
    simp [indexAnyOpt, hx, ih post hxs]

theorem IndexAny_append (chars : GoString) (c : Char) (hc : c ∈ chars) (pre post : GoString)
    (h : ∀ x ∈ pre, x ∉ chars) : IndexAny (pre ++ c :: post) chars = (pre.length : Int) := by
  simp [IndexAny, indexAnyOpt_append chars c hc pre post h]

theorem slice_middle (c : Char) (mid post : GoString) :
    slice (c :: (mid ++ post)) 1 ((mid.length : Int) + 1) = some mid := by
  simp [slice]

theorem sliceFrom_append_cons (pre : GoString) (c : Char) (post : GoString) :
    sliceFrom (pre ++ c :: post) ((pre.length : Int) + 1) = some post := by
  have := sliceFrom_append (pre ++ [c]) post
  simpa using this

theorem sliceFrom_cons_append (c : Char) (mid post : GoString) :
    sliceFrom (c :: (mid ++ post)) ((mid.length : Int) + 1) = some post := by
  have := sliceFrom_append (c :: mid) post
  simpa using this

theorem not_mem_of_isDigits (D : GoString) (h : IsDigits D) (c : Char) (hc : c.isDigit = false) :
    c ∉ D := by
  intro hm
  have := h c hm
  simp [hc] at this

/-! ## Lemmas on the stages of the URI parser -/

theorem schemeSpelling_facts (S : GoString) (h : S ∈ schemeSpellings) :
    ':' ∉ S ∧
    ∀ sv sid, SGSIPSetSchema S sv sid = (SGSIPRetOK, lowerCase S, schemaIdOf (lowerCase S)) := by
  simp only [schemeSpellings, List.mem_cons, List.mem_singleton, List.not_mem_nil, or_false] at h
  rcases h with rfl | rfl | rfl | rfl | rfl | rfl <;>
    exact ⟨by decide, fun _ _ => rfl⟩

theorem SGSIPParseURI_scheme (parseIP : GoString → Bool) (S rest : GoString) (uri : SGSIPURI)
    (hS : S ∈ schemeSpellings) :
    SGSIPParseURI parseIP (S ++ ':' :: rest) uri =
      parseURIUser parseIP (S ++ ':' :: rest) rest
        { uri with schema := lowerCase S, schemaid := schemaIdOf (lowerCase S) } := by
  obtain ⟨hcol, hset⟩ := schemeSpelling_facts S hS
  simp [SGSIPParseURI, SplitN2_append ':' S rest hcol, hset, SGSIPRetOK]

theorem parseURIParams_transport (uristr T : GoString) (uri : SGSIPURI)
    (hT : T ∈ protoSpellings) :
    parseURIParams uristr (";transport=".toList ++ T) uri =
      some (SGSIPRetOK,
        { uri with
          proto := lowerCase T, protoid := protoIdOf (lowerCase T),
          params := "transport=".toList ++ T, val := uristr }) := by
  simp only [protoSpellings, List.mem_cons, List.mem_singleton, List.not_mem_nil, or_false] at hT
  rcases hT with rfl | rfl | rfl | rfl | rfl | rfl | rfl | rfl | rfl | rfl | rfl | rfl <;> rfl

theorem parseURIPortParams_params (uristr tl : GoString) (uri : SGSIPURI) :
    parseURIPortParams uristr (';' :: tl) uri = parseURIParams uristr (';' :: tl) uri := by
  simp [parseURIPortParams, slice_zero_one_cons]

theorem parseURIPortParams_port_params (uristr D tl : GoString) (uri : SGSIPURI)
    (hD : D ≠ []) (hdig : IsDigits D) (hlen : D.length ≤ 9) (hpos : 0 < decimalValue D) :
    parseURIPortParams uristr (':' :: (D ++ ';' :: tl)) uri =
      parseURIParams uristr (';' :: tl)
        { uri with port := D, portno := (decimalValue D : Int) } := by
  have hsc : ';' ∉ ':' :: D := by
    have := not_mem_of_isDigits D hdig ';' (by decide)
    simp [this]
  have hidx : Index (':' :: (D ++ ';' :: tl)) [';'] = (D.length : Int) + 1 := by
    simpa using Index_singleton_append ';' (':' :: D) tl hsc
  have hatoi := Atoi_digits D hD hdig hlen
  have hnn : ¬ ((D.length : Int) + 1 < 0) := by omega
  have hp : ¬ ((decimalValue D : Int) ≤ 0) := by omega
  simp [parseURIPortParams, slice_zero_one_cons, hidx, hnn, slice_middle,
    sliceFrom_cons_append, hatoi, hp]

theorem parseURIPortParams_port (uristr D : GoString) (uri : SGSIPURI)
    (hD : D ≠ []) (hdig : IsDigits D) (hlen : D.length ≤ 9) (hpos : 0 < decimalValue D) :
    parseURIPortParams uristr (':' :: D) uri =
      some (SGSIPRetOK,
        { uri with
          port := D, portno := (decimalValue D : Int), proto := "udp".toList,
          protoid := ProtoUDP, val := uristr }) := by
  have hsc : ';' ∉ ':' :: D := by
    have := not_mem_of_isDigits D hdig ';' (by decide)
    simp [this]
  have hidx : Index (':' :: D) [';'] = -1 := Index_singleton_of_not_mem ';' _ hsc
  have hatoi := Atoi_digits D hD hdig hlen
  have hp : ¬ ((decimalValue D : Int) ≤ 0) := by omega
  simp [parseURIPortParams, slice_zero_one_cons, hidx, sliceFrom_one_cons, hatoi, hp]

theorem parseURIHost_plain (parseIP : GoString → Bool) (uristr : GoString) (colPos scPos : Int)
    (H : GoString) (c : Char) (tl : GoString) (uri : SGSIPURI)
    (hnn : ¬ (colPos < 0 ∧ scPos < 0)) (hb : H.head? ≠ some '[')
    (hcol : ':' ∉ H) (hsc : ';' ∉ H) (hc : c = ':' ∨ c = ';') :
    parseURIHost parseIP uristr colPos scPos (H ++ c :: tl) uri =
      parseURIPortParams uristr (c :: tl)
        { uri with addr := H, atype := SGAddrType parseIP H } := by
  have hany : IndexAny (H ++ c :: tl) [':', ';'] = (H.length : Int) := by
    apply IndexAny_append
    · rcases hc with rfl | rfl <;> simp
    · intro x hx hmem
      simp only [List.mem_cons, List.mem_singleton, List.not_mem_nil, or_false] at hmem
      rcases hmem with rfl | rfl
      · exact hcol hx
      · exact hsc hx
  have hfirst : ∃ f, slice (H ++ c :: tl) 0 1 = some [f] ∧ f ≠ '[' := by
    cases H with
    | nil => exact ⟨c, by simp [slice_zero_one_cons], by rcases hc with rfl | rfl <;> decide⟩
    | cons h0 ht => exact ⟨h0, by simp [slice_zero_one_cons], by simpa using hb⟩
  obtain ⟨f, hf, hfb⟩ := hfirst
  unfold parseURIHost
  simp [hnn, hf, hfb, hany, slice_upto, sliceFrom_append]

theorem parseURIUser_plain (parseIP : GoString → Bool) (uristr U hostPP : GoString)
    (uri : SGSIPURI) (hU : U ≠ []) (hat : '@' ∉ U) (hsc : ';' ∉ U) :
    parseURIUser parseIP uristr (U ++ '@' :: hostPP) uri =
      parseURIHost parseIP uristr (Index (U ++ '@' :: hostPP) [':'])
        (Index (U ++ '@' :: hostPP) [';']) hostPP { uri with user := U } := by
  have hat2 := Index_singleton_append '@' U hostPP hat
  have hlen : 0 < U.length := List.length_pos.mpr hU
  have h0 : ¬ ((U.length : Int) = 0) := by omega
  have h1 : ¬ ((U.length : Int) < 0) := by omega
  have h2 : (U.length : Int) > 0 := by omega
  have hu := Index_singleton_of_not_mem ';' U hsc
  unfold parseURIUser
  simp [hat2, h0, h1, h2, slice_upto, hu, sliceFrom_append_cons]

theorem slice_inner (c d : Char) (A : GoString) :
    slice (c :: (A ++ [d])) 1 (((c :: (A ++ [d])).length : Int) - 1) = some A := by
  simp [slice]

theorem parseURIHost_bracket (parseIP : GoString → Bool) (uristr : GoString)
    (colPos scPos : Int) (A tl : GoString) (uri : SGSIPURI)
    (hnn : ¬ (colPos < 0 ∧ scPos < 0)) (hA : ']' ∉ A)
    (h6 : SGAddrType parseIP A = AFIPv6) (htl : tl ≠ []) (hlast : tl.getLast? ≠ some ']') :
    parseURIHost parseIP uristr colPos scPos ('[' :: (A ++ ']' :: tl)) uri =
      parseURIPortParams uristr tl
        { uri with addr := '[' :: (A ++ [']']), atype := AFIPv6 } := by
  have hne : '[' :: (A ++ ']' :: tl) ≠ [] := by simp
  obtain ⟨z, hl, hz⟩ : ∃ z, sliceFrom ('[' :: (A ++ ']' :: tl))
      ((('[' :: (A ++ ']' :: tl)).length : Int) - 1) = some [z] ∧
      z = ('[' :: (A ++ ']' :: tl)).getLast hne :=
    ⟨_, sliceFrom_length_sub_one _ hne, rfl⟩
  have hgl : z ≠ ']' := by
    intro h
    rw [hz] at h
    apply hlast
    have h2 : ('[' :: (A ++ ']' :: tl)).getLast? = some ']' := by
      rw [List.getLast?_eq_getLast _ hne, h]
    have h3 : ('[' :: (A ++ ']' :: tl)) = ('[' :: (A ++ [']'])) ++ tl := by simp
    rw [h3, List.getLast?_append_of_ne_nil _ htl] at h2
    exact h2
  have hsplit : SplitN2 ('[' :: (A ++ ']' :: tl)) [']'] = ['[' :: A, tl] := by
    have : ']' ∉ '[' :: A := by simp [hA]
    simpa using SplitN2_append ']' ('[' :: A) tl this
  have hin := slice_inner '[' ']' A
  unfold parseURIHost
  simp at hl hin
  simp [hnn, slice_zero_one_cons, hl, hgl, hsplit, hin, h6]

theorem protoSpelling_last (T : GoString) (h : T ∈ protoSpellings) :
    T ≠ [] ∧ T.getLast? ≠ some ']' := by
  simp only [protoSpellings, List.mem_cons, List.mem_singleton, List.not_mem_nil, or_false] at h
  rcases h with rfl | rfl | rfl | rfl | rfl | rfl | rfl | rfl | rfl | rfl | rfl | rfl <;>
    exact ⟨by decide, by decide⟩

theorem parseSocketAddrPort_bracket (parseIP : GoString → Bool)
    (sockstr strProto A D : GoString) (sa : SGSIPSocketAddress) (hbr : ']' ∉ A)
    (hD : D ≠ []) (hdig : IsDigits D) (hlen : D.length ≤ 9) :
    parseSocketAddrPort parseIP sockstr strProto ('[' :: (A ++ ']' :: ':' :: D)) sa =
      if SGAddrType parseIP ('[' :: (A ++ [']'])) ≠ AFIPv6 then
        some (SGSIPRetErr,
          { sa with
            port := D, portno := (decimalValue D : Int), addr := '[' :: (A ++ [']']),
            atype := SGAddrType parseIP ('[' :: (A ++ [']'])) })
      else
        some (SGSIPRetOK,
          { sa with
            port := D, portno := (decimalValue D : Int), addr := '[' :: (A ++ [']']),
            atype := SGAddrType parseIP ('[' :: (A ++ [']'])), val := sockstr }) := by
  have hsplit : SplitN2 ('[' :: (A ++ ']' :: ':' :: D)) [']'] = ['[' :: A, ':' :: D] := by
    have : ']' ∉ '[' :: A := by simp [hbr]
    simpa using SplitN2_append ']' ('[' :: A) (':' :: D) this
  have hatoi := Atoi_digits D hD hdig hlen
  unfold parseSocketAddrPort
  by_cases hsp : strProto = [] <;>
    simp [slice_zero_one_cons, hsplit, sliceFrom_one_cons, hatoi, hsp]

/-! ## Lemmas on the rendering of `net.ParseIP` -/

theorem parseIPv4Fields_bracket (s : GoString) :
    parseIPv4Fields ('[' :: s) 0 0 0 true = false := by
  simp [parseIPv4Fields]

theorem parseIPv6_bracket (s : GoString) : parseIPv6 ('[' :: s) = false := by
  unfold parseIPv6
  split
  · rfl
  · have h : hexGroup ('[' :: s) 0 = some (0, '[' :: s) := by
      simp [hexGroup, isHexDigit]
    simp [parseIPv6Loop, h]

theorem parseAddrDispatch_bracket (s : GoString) :
    ∀ t : GoString, parseAddrDispatch ('[' :: s) t = false := by
  intro t
  induction t with
  | nil => rfl
  | cons c cs ih =>
    simp [parseAddrDispatch, parseIPv4Fields_bracket, parseIPv6_bracket, ih]

theorem netParseIP_bracket (s : GoString) : netParseIP ('[' :: s) = false := by
  simp [netParseIP, parseAddrDispatch, parseAddrDispatch_bracket]

theorem netParseIP_nil : netParseIP [] = false := rfl

/-! ## The claims of the specification, C1 to C10 -/

/-- C1 (totality of `SGSIPParseSocketAddress`), evaluated on the code: the parser does not
return on every input.  On the empty string the slice `sockstr[0:1]` is out of range; on
`udp:` the slice `strAddrPort[0:1]`; on `udp:5060` and `[a:b` the index `strArray[1]`; on
`tcp:[::1]` the slice `strArray[1][1:]`.  Each of these calls panics, whatever the output
record holds and whatever `net.ParseIP` answers. -/
theorem parseSocketAddress_panics (parseIP : GoString → Bool) (r : SGSIPSocketAddress) :
    SGSIPParseSocketAddress parseIP [] r = none ∧
    SGSIPParseSocketAddress parseIP "udp:".toList r = none ∧
    SGSIPParseSocketAddress parseIP "udp:5060".toList r = none ∧
    SGSIPParseSocketAddress parseIP "tcp:[::1]".toList r = none ∧
    SGSIPParseSocketAddress parseIP "[a:b".toList r = none :=
  ⟨rfl, rfl, rfl, rfl, rfl⟩

/-- C2 (totality of `SGSIPParseURI`), evaluated on the code: the parser does not return on
every input.  With `:` or `;` in the user part and neither in the host part, the positions
of lines 216-217 send the call past line 251 and `pHostPP[0:scPos]` is then evaluated with
`scPos = -1`; with an empty host part after such a user, `pHostPP[0:1]` is out of range;
for a bracketed IPv6 host without `]`, `strArray[1]` of line 284 does not exist.  Each of
these calls panics. -/
theorem parseURI_panics (parseIP : GoString → Bool) (uri : SGSIPURI) :
    SGSIPParseURI parseIP "sip:alice:secret@host.example".toList uri = none ∧
    SGSIPParseURI parseIP "sip:alice;day=1@host.example".toList uri = none ∧
    SGSIPParseURI parseIP "sip:a;b@".toList uri = none ∧
    SGSIPParseURI netParseIP "sip:[::1".toList uri = none :=
  ⟨rfl, rfl, rfl, rfl⟩

/-- C3 (a bare bracketed IPv6 literal), evaluated on the code: for every text `A`, valid
IPv6 literal or not, `SGSIPParseSocketAddress` on `[A]` with the zero-valued record returns
`SGSIPRetErr`, as soon as `net.ParseIP` rejects the empty string.  Line 137 classifies the
`addr` field of the record, which is still empty, so `atype` becomes `AFHost` and no other
field is written. -/
theorem parseSocketAddress_bare_bracket_rejected (parseIP : GoString → Bool) (A : GoString)
    (hempty : parseIP [] = false) :
    SGSIPParseSocketAddress parseIP ("[".toList ++ A ++ "]".toList) emptySocketAddress =
      some (SGSIPRetErr, { emptySocketAddress with atype := AFHost }) := by
  have hin : "[".toList ++ A ++ "]".toList = '[' :: (A ++ [']']) := by simp
  have hne : '[' :: (A ++ [']']) ≠ [] := by simp
  have hl : sliceFrom ('[' :: (A ++ [']'])) ((('[' :: (A ++ [']'])).length : Int) - 1) =
      some [']'] := by
    have := sliceFrom_length_sub_one ('[' :: (A ++ [']'])) hne
    simpa using this
  simp at hl
  rw [hin]
  unfold SGSIPParseSocketAddress
  simp [slice_zero_one_cons, hl, emptySocketAddress, SGAddrType, hempty, AFHost, AFIPv6]

/-- C3 at `[::1]`: `::1` is an IPv6 literal for `SGAddrType`, and the call returns
`SGSIPRetErr` with nothing but `atype` written. -/
theorem parseSocketAddress_bare_bracket_rejected_witness :
    SGAddrType netParseIP "::1".toList = AFIPv6 ∧
    SGSIPParseSocketAddress netParseIP "[::1]".toList emptySocketAddress =
      some (SGSIPRetErr,
        { val := [], proto := [], addr := [], port := [], portno := 0, atype := AFHost,
          protoid := 0 }) :=
  ⟨by decide, parseSocketAddress_bare_bracket_rejected netParseIP "::1".toList (by decide)⟩

/-- C4 (protocol, bracketed IPv6 literal and port), evaluated on the code: for every known
protocol spelling `P`, every text `A` without `]` and every digit string `D` of at most 9
digits, `SGSIPParseSocketAddress` on `P:[A]:D` with the zero-valued record returns
`SGSIPRetErr`, as soon as `net.ParseIP` rejects the bracketed text `[A]` (it rejects every
text with a `[`).  Line 185 classifies `addr` with its brackets, so `atype` is `AFHost`;
`proto`, `port`, `portno` and `addr` have been written by then and `val` has not. -/
theorem parseSocketAddress_proto_bracket_rejected (parseIP : GoString → Bool)
    (P A D : GoString) (hP : P ∈ protoSpellings) (hbr : ']' ∉ A)
    (hrej : parseIP ("[".toList ++ A ++ "]".toList) = false)
    (hD : D ≠ []) (hdig : IsDigits D) (hlen : D.length ≤ 9) :
    SGSIPParseSocketAddress parseIP (P ++ ":[".toList ++ A ++ "]:".toList ++ D)
        emptySocketAddress =
      some (SGSIPRetErr,
        { val := [], proto := lowerCase P, addr := "[".toList ++ A ++ "]".toList, port := D,
          portno := (decimalValue D : Int), atype := AFHost,
          protoid := protoIdOf (lowerCase P) }) := by
  obtain ⟨⟨c, t, rfl, hc⟩, hPc, -, hset⟩ := protoSpelling_facts P hP
  have hin : (c :: t) ++ ":[".toList ++ A ++ "]:".toList ++ D =
      c :: (t ++ ':' :: ('[' :: (A ++ ']' :: ':' :: D))) := by simp
  have hsplit : SplitN2 (c :: (t ++ ':' :: ('[' :: (A ++ ']' :: ':' :: D)))) [':'] =
      [c :: t, '[' :: (A ++ ']' :: ':' :: D)] := by
    simpa using SplitN2_append ':' (c :: t) ('[' :: (A ++ ']' :: ':' :: D)) hPc
  have hrej2 : parseIP ('[' :: (A ++ [']'])) = false := by simpa using hrej
  have hty : SGAddrType parseIP ('[' :: (A ++ [']'])) = AFHost := by simp [SGAddrType, hrej2]
  have hap := parseSocketAddrPort_bracket parseIP
    (c :: (t ++ ':' :: ('[' :: (A ++ ']' :: ':' :: D)))) (c :: t) A D
  rw [hin]
  unfold SGSIPParseSocketAddress
  simp [slice_zero_one_cons, hc, hsplit, hset, SGSIPRetOK, hap _ hbr hD hdig hlen, hty,
    AFHost, AFIPv6, emptySocketAddress]

/-- C4 at `tcp:[2001:db8::1]:5061`: the interior is an IPv6 literal for `SGAddrType`, and
the call returns `SGSIPRetErr`. -/
theorem parseSocketAddress_proto_bracket_rejected_witness :
    SGAddrType netParseIP "2001:db8::1".toList = AFIPv6 ∧
    SGSIPParseSocketAddress netParseIP "tcp:[2001:db8::1]:5061".toList emptySocketAddress =
      some (SGSIPRetErr,
        { val := [], proto := "tcp".toList, addr := "[2001:db8::1]".toList,
          port := "5061".toList, portno := 5061, atype := AFHost, protoid := ProtoTCP }) :=
  ⟨by decide,
    parseSocketAddress_proto_bracket_rejected netParseIP "tcp".toList "2001:db8::1".toList
      "5061".toList (by decide) (by decide) (by decide) (by decide) (by decide) (by decide)⟩

/-- C5 (`S:U@H;transport=T`), evaluated on the code: for every scheme spelling `S`, every
non-empty user `U` without `@` and `;`, every host `H` without `:` and `;` that does not
start with `[`, and every known protocol spelling `T`, `SGSIPParseURI` with the zero-valued
record returns `SGSIPRetOK` with `schema`, `user`, `addr`, `params` and `proto` as the claim
says, but `port` and `portno` are not defaulted: they keep the zero values `""` and `0`,
since the branch of line 315 never writes them. -/
theorem parseURI_transport_port_not_defaulted (parseIP : GoString → Bool)
    (S U H T : GoString) (hS : S ∈ schemeSpellings) (hT : T ∈ protoSpellings)
    (hU : U ≠ []) (hUat : '@' ∉ U) (hUsc : ';' ∉ U)
    (hHcol : ':' ∉ H) (hHsc : ';' ∉ H) (hHb : H.head? ≠ some '[') :
    SGSIPParseURI parseIP
        (S ++ ":".toList ++ U ++ "@".toList ++ H ++ ";transport=".toList ++ T) emptyURI =
      some (SGSIPRetOK,
        { val := S ++ ":".toList ++ U ++ "@".toList ++ H ++ ";transport=".toList ++ T,
          schema := lowerCase S, schemaid := schemaIdOf (lowerCase S),
          user := U, addr := H, port := [], portno := 0,
          params := "transport=".toList ++ T, uparams := [],
          proto := lowerCase T, protoid := protoIdOf (lowerCase T),
          atype := SGAddrType parseIP H }) := by
  have hin : S ++ ":".toList ++ U ++ "@".toList ++ H ++ ";transport=".toList ++ T =
      S ++ ':' :: (U ++ '@' :: (H ++ ';' :: ("transport=".toList ++ T))) := by simp
  have hnn : ¬ (Index (U ++ '@' :: (H ++ ';' :: ("transport=".toList ++ T))) [':'] < 0 ∧
      Index (U ++ '@' :: (H ++ ';' :: ("transport=".toList ++ T))) [';'] < 0) := by
    have := Index_singleton_nonneg ';' (U ++ '@' :: (H ++ ';' :: ("transport=".toList ++ T)))
      (by simp)
    omega
  rw [hin, SGSIPParseURI_scheme _ _ _ _ hS, parseURIUser_plain _ _ _ _ _ hU hUat hUsc,
    parseURIHost_plain _ _ _ _ _ _ _ _ hnn hHb hHcol hHsc (Or.inr rfl),
    parseURIPortParams_params]
  exact parseURIParams_transport _ T _ hT

/-- C5 at `sip:alice@host.example;transport=tcp`: the call succeeds with `port = ""` and
`portno = 0`, not `"5060"` and `5060`. -/
theorem parseURI_transport_port_not_defaulted_witness :
    SGSIPParseURI netParseIP "sip:alice@host.example;transport=tcp".toList emptyURI =
      some (SGSIPRetOK,
        { val := "sip:alice@host.example;transport=tcp".toList,
          schema := "sip".toList, schemaid := SchemaSIP,
          user := "alice".toList, addr := "host.example".toList, port := [], portno := 0,
          params := "transport=tcp".toList, uparams := [],
          proto := "tcp".toList, protoid := ProtoTCP, atype := AFHost }) :=
  parseURI_transport_port_not_defaulted netParseIP "sip".toList "alice".toList
    "host.example".toList "tcp".toList (by decide) (by decide) (by decide) (by decide)
    (by decide) (by decide) (by decide) (by decide)

/-- C6: for every scheme spelling `S`, every non-empty user `U` without `@` and `;`, every
valid IPv6 literal `A` (classified `AFIPv6` by `SGAddrType`, no `]` in it), every digit
string `D` of at most 9 digits that denotes a positive integer and every known protocol
spelling `T`, `SGSIPParseURI` on `S:U@[A]:D;transport=T` with the zero-valued record returns
`SGSIPRetOK` with `schema` the lower-case `S`, `user = U`, `addr = [A]`, `atype = AFIPv6`,
`port = D`, `portno` the value of `D`, `proto` the lower-case `T` with its id, and
`params = transport=T`. -/
theorem parseURI_bracket_port_transport (parseIP : GoString → Bool) (S U A D T : GoString)
    (hS : S ∈ schemeSpellings) (hT : T ∈ protoSpellings)
    (hU : U ≠ []) (hUat : '@' ∉ U) (hUsc : ';' ∉ U)
    (hA : SGAddrType parseIP A = AFIPv6) (hAbr : ']' ∉ A)
    (hdig : IsDigits D) (hlen : D.length ≤ 9) (hpos : 0 < decimalValue D) :
    SGSIPParseURI parseIP
        (S ++ ":".toList ++ U ++ "@[".toList ++ A ++ "]:".toList ++ D ++
          ";transport=".toList ++ T) emptyURI =
      some (SGSIPRetOK,
        { val := S ++ ":".toList ++ U ++ "@[".toList ++ A ++ "]:".toList ++ D ++
            ";transport=".toList ++ T,
          schema := lowerCase S, schemaid := schemaIdOf (lowerCase S),
          user := U, addr := "[".toList ++ A ++ "]".toList, port := D,
          portno := (decimalValue D : Int),
          params := "transport=".toList ++ T, uparams := [],
          proto := lowerCase T, protoid := protoIdOf (lowerCase T),
          atype := AFIPv6 }) := by
  have hD : D ≠ [] := by
    rintro rfl
    simp [decimalValue] at hpos
  obtain ⟨hTne, hTlast⟩ := protoSpelling_last T hT
  have hin : S ++ ":".toList ++ U ++ "@[".toList ++ A ++ "]:".toList ++ D ++
        ";transport=".toList ++ T =
      S ++ ':' :: (U ++ '@' :: ('[' :: (A ++ ']' :: (':' :: (D ++ ';' ::
        ("transport=".toList ++ T)))))) := by simp
  have hnn : ¬ (Index (U ++ '@' :: ('[' :: (A ++ ']' :: (':' :: (D ++ ';' ::
        ("transport=".toList ++ T)))))) [':'] < 0 ∧
      Index (U ++ '@' :: ('[' :: (A ++ ']' :: (':' :: (D ++ ';' ::
        ("transport=".toList ++ T)))))) [';'] < 0) := by
    have := Index_singleton_nonneg ';' (U ++ '@' :: ('[' :: (A ++ ']' :: (':' :: (D ++ ';' ::
        ("transport=".toList ++ T)))))) (by simp)
    omega
  have htl : (':' :: (D ++ ';' :: ("transport=".toList ++ T))) ≠ [] := by simp
  have hlast : (':' :: (D ++ ';' :: ("transport=".toList ++ T))).getLast? ≠ some ']' := by
    have e : (':' :: (D ++ ';' :: ("transport=".toList ++ T))) =
        (':' :: (D ++ ';' :: "transport=".toList)) ++ T := by simp
    rw [e, List.getLast?_append_of_ne_nil _ hTne]
    exact hTlast
  rw [hin, SGSIPParseURI_scheme _ _ _ _ hS, parseURIUser_plain _ _ _ _ _ hU hUat hUsc,
    parseURIHost_bracket _ _ _ _ _ _ _ hnn hAbr hA htl hlast,
    parseURIPortParams_port_params _ _ _ _ hD hdig hlen hpos]
  have := parseURIParams_transport
    (S ++ ':' :: (U ++ '@' :: ('[' :: (A ++ ']' :: (':' :: (D ++ ';' ::
        ("transport=".toList ++ T))))))) T
    { val := [], schema := lowerCase S, schemaid := schemaIdOf (lowerCase S), user := U,
      addr := '[' :: (A ++ [']']), port := D, portno := (decimalValue D : Int), params := [],
      uparams := [], proto := [], protoid := 0, atype := AFIPv6 } hT
  simpa [emptyURI] using this

/-- C6 at `sips:bob@[2001:db8::2]:5061;transport=tls`. -/
theorem parseURI_bracket_port_transport_witness :
    SGSIPParseURI netParseIP "sips:bob@[2001:db8::2]:5061;transport=tls".toList emptyURI =
      some (SGSIPRetOK,
        { val := "sips:bob@[2001:db8::2]:5061;transport=tls".toList,
          schema := "sips".toList, schemaid := SchemaSIPS,
          user := "bob".toList, addr := "[2001:db8::2]".toList, port := "5061".toList,
          portno := 5061,
          params := "transport=tls".toList, uparams := [],
          proto := "tls".toList, protoid := ProtoTLS,
          atype := AFIPv6 }) :=
  parseURI_bracket_port_transport netParseIP "sips".toList "bob".toList
    "2001:db8::2".toList "5061".toList "tls".toList
    (by decide) (by decide) (by decide) (by decide) (by decide) (by decide) (by decide)
    (by decide) (by decide) (by decide)

/-- C7: the protocol prefix of a socket address is optional and defaults to udp.  For every
host `H` without `:` that does not start with `[` and every non-empty digit string `D` of at
most 9 digits, whatever the output record held before: (i) for every known protocol
spelling `P`, `SGSIPParseSocketAddress` on `P:H:D` returns `SGSIPRetOK` with `proto` the
lower-case `P` and `protoid` its id; (ii) when `H` is not itself a protocol spelling, on
`H:D` it returns `SGSIPRetOK` with `proto = udp`, `protoid = ProtoUDP`.  In both cases
`addr = H`, `port = D`, `portno` is the value of `D`, `atype = SGAddrType(H)` and `val` is
the whole input. -/
theorem parseSocketAddress_optional_proto (parseIP : GoString → Bool) (H D : GoString)
    (r : SGSIPSocketAddress) (hH : ':' ∉ H) (hb : H.head? ≠ some '[')
    (hD : D ≠ []) (hdig : IsDigits D) (hlen : D.length ≤ 9) :
    (∀ P ∈ protoSpellings,
      SGSIPParseSocketAddress parseIP (P ++ ":".toList ++ H ++ ":".toList ++ D) r =
        some (SGSIPRetOK,
          { val := P ++ ":".toList ++ H ++ ":".toList ++ D, proto := lowerCase P, addr := H,
            port := D, portno := (decimalValue D : Int), atype := SGAddrType parseIP H,
            protoid := protoIdOf (lowerCase P) })) ∧
    (H ∉ protoSpellings →
      SGSIPParseSocketAddress parseIP (H ++ ":".toList ++ D) r =
        some (SGSIPRetOK,
          { val := H ++ ":".toList ++ D, proto := "udp".toList, addr := H,
            port := D, portno := (decimalValue D : Int), atype := SGAddrType parseIP H,
            protoid := ProtoUDP })) := by
  constructor
  · intro P hP
    obtain ⟨⟨c, t, rfl, hc⟩, hPc, -, hset⟩ := protoSpelling_facts P hP
    have hsplit : SplitN2 (c :: (t ++ ':' :: (H ++ ':' :: D))) [':'] =
        [c :: t, H ++ ':' :: D] := by
      simpa using SplitN2_append ':' (c :: t) (H ++ ':' :: D) hPc
    have hap := parseSocketAddrPort_host parseIP (c :: (t ++ ':' :: (H ++ ':' :: D)))
      (c :: t) H D
    simp [SGSIPParseSocketAddress, slice_zero_one_cons, hc, hsplit, hset, SGSIPRetOK,
      hap _ hH hb hD hdig hlen]
  · intro hnot
    have hset := SGSIPSetProto_of_not_mem H r.proto r.protoid hnot
    have hsplit := SplitN2_append ':' H D hH
    have hap := parseSocketAddrPort_host parseIP (H ++ ':' :: D) [] H D
    cases H with
    | nil =>
      simp only [List.nil_append] at hsplit hap ⊢
      simp [SGSIPParseSocketAddress, slice_zero_one_cons, hsplit, hset, SGSIPRetOK,
        SGSIPRetErr, hap _ hH hb hD hdig hlen]
    | cons c t =>
      have hc : c ≠ '[' := by simpa using hb
      simp only [List.cons_append] at hsplit hap ⊢
      simp [SGSIPParseSocketAddress, slice_zero_one_cons, hsplit, hset, SGSIPRetOK,
        SGSIPRetErr, hap _ hH hb hD hdig hlen, hc]

/-- C7 at `udp:host.example:5070` and at `host.example:5070`. -/
theorem parseSocketAddress_optional_proto_witness :
    SGSIPParseSocketAddress netParseIP "udp:host.example:5070".toList emptySocketAddress =
      some (SGSIPRetOK,
        { val := "udp:host.example:5070".toList, proto := "udp".toList,
          addr := "host.example".toList, port := "5070".toList, portno := 5070,
          atype := AFHost, protoid := ProtoUDP }) ∧
    SGSIPParseSocketAddress netParseIP "host.example:5070".toList emptySocketAddress =
      some (SGSIPRetOK,
        { val := "host.example:5070".toList, proto := "udp".toList,
          addr := "host.example".toList, port := "5070".toList, portno := 5070,
          atype := AFHost, protoid := ProtoUDP }) :=
  ⟨(parseSocketAddress_optional_proto netParseIP "host.example".toList "5070".toList
      emptySocketAddress (by decide) (by decide) (by decide) (by decide) (by decide)).1
      "udp".toList (by decide),
   (parseSocketAddress_optional_proto netParseIP "host.example".toList "5070".toList
      emptySocketAddress (by decide) (by decide) (by decide) (by decide) (by decide)).2
      (by decide)⟩

/-- C8: for every non-empty input without `:` that is not wrapped in `[` ... `]`,
`SGSIPParseSocketAddress` returns `SGSIPRetOK` with `proto = udp`, `protoid = ProtoUDP`,
`port = 5060`, `portno = 5060`, `addr` and `val` the input and `atype = SGAddrType(input)`,
whatever the output record held before. -/
theorem parseSocketAddress_bare_host_defaults (parseIP : GoString → Bool) (s : GoString)
    (r : SGSIPSocketAddress) (hne : s ≠ []) (hcol : ':' ∉ s)
    (hwrap : ¬ (s.head? = some '[' ∧ s.getLast? = some ']')) :
    SGSIPParseSocketAddress parseIP s r =
      some (SGSIPRetOK,
        { val := s, proto := "udp".toList, addr := s, port := "5060".toList, portno := 5060,
          atype := SGAddrType parseIP s, protoid := ProtoUDP }) := by
  obtain ⟨c, t, rfl⟩ := List.exists_cons_of_ne_nil hne
  have hlast := sliceFrom_length_sub_one (c :: t) hne
  have hgl : (c :: t).getLast? = some ((c :: t).getLast hne) := List.getLast?_eq_getLast _ _
  rw [hgl] at hwrap
  have hsplit := SplitN2_of_not_mem ':' (c :: t) hcol
  simp only [SGSIPParseSocketAddress, slice_zero_one_cons]
  by_cases hc : c = '['
  · subst hc
    have hl : (('[' :: t).getLast hne) ≠ ']' := by
      intro h; apply hwrap; simp [h]
    have hlast2 : sliceFrom ('[' :: t) (t.length : Int) = some [('[' :: t).getLast hne] := by
      simpa using hlast
    simp [hlast2, hl, hsplit]
  · simp [hc, hsplit]

/-- C8 at `host.example`, with a record that already holds other values. -/
theorem parseSocketAddress_bare_host_defaults_witness :
    SGSIPParseSocketAddress netParseIP "host.example".toList
        { val := "x".toList, proto := "tcp".toList, addr := "y".toList, port := "1".toList,
          portno := 1, atype := AFIPv4, protoid := ProtoTCP } =
      some (SGSIPRetOK,
        { val := "host.example".toList, proto := "udp".toList, addr := "host.example".toList,
          port := "5060".toList, portno := 5060, atype := AFHost, protoid := ProtoUDP }) :=
  parseSocketAddress_bare_host_defaults netParseIP "host.example".toList _
    (by decide) (by decide) (by decide)

/-- C9: `SGSIPSetProto` returns `SGSIPRetOK` exactly for the twelve spellings udp/UDP,
tcp/TCP, tls/TLS, sctp/SCTP, ws/WS, wss/WSS (`Udp` is none of them); for any other token it
returns `SGSIPRetErr` and hands the two output variables back unchanged; the lower-case and
the upper-case spelling of a protocol give the same result, the lower-case string with the
id of the protocol; and the ids `ProtoUDP` .. `ProtoWSS` are pairwise distinct and differ
from `ProtoNONE`. -/
theorem SGSIPSetProto_table (t pv : GoString) (pid : Int) :
    ((SGSIPSetProto t pv pid).1 = SGSIPRetOK ↔ t ∈ protoSpellings) ∧
    (t ∉ protoSpellings → SGSIPSetProto t pv pid = (SGSIPRetErr, pv, pid)) ∧
    "Udp".toList ∉ protoSpellings ∧
    (SGSIPSetProto "udp".toList pv pid = (SGSIPRetOK, "udp".toList, ProtoUDP) ∧
     SGSIPSetProto "UDP".toList pv pid = (SGSIPRetOK, "udp".toList, ProtoUDP)) ∧
    (SGSIPSetProto "tcp".toList pv pid = (SGSIPRetOK, "tcp".toList, ProtoTCP) ∧
     SGSIPSetProto "TCP".toList pv pid = (SGSIPRetOK, "tcp".toList, ProtoTCP)) ∧
    (SGSIPSetProto "tls".toList pv pid = (SGSIPRetOK, "tls".toList, ProtoTLS) ∧
     SGSIPSetProto "TLS".toList pv pid = (SGSIPRetOK, "tls".toList, ProtoTLS)) ∧
    (SGSIPSetProto "sctp".toList pv pid = (SGSIPRetOK, "sctp".toList, ProtoSCTP) ∧
     SGSIPSetProto "SCTP".toList pv pid = (SGSIPRetOK, "sctp".toList, ProtoSCTP)) ∧
    (SGSIPSetProto "ws".toList pv pid = (SGSIPRetOK, "ws".toList, ProtoWS) ∧
     SGSIPSetProto "WS".toList pv pid = (SGSIPRetOK, "ws".toList, ProtoWS)) ∧
    (SGSIPSetProto "wss".toList pv pid = (SGSIPRetOK, "wss".toList, ProtoWSS) ∧
     SGSIPSetProto "WSS".toList pv pid = (SGSIPRetOK, "wss".toList, ProtoWSS)) ∧
    [ProtoNONE, ProtoUDP, ProtoTCP, ProtoTLS, ProtoSCTP, ProtoWS, ProtoWSS].Nodup :=
  ⟨SGSIPSetProto_ok_iff t pv pid, SGSIPSetProto_of_not_mem t pv pid, by decide,
    ⟨rfl, rfl⟩, ⟨rfl, rfl⟩, ⟨rfl, rfl⟩, ⟨rfl, rfl⟩, ⟨rfl, rfl⟩, ⟨rfl, rfl⟩, by decide⟩

/-- C9 at the tokens `Udp` and `TLS`, with output variables that already hold `x` and `7`:
the first call fails and hands them back, the second succeeds. -/
theorem SGSIPSetProto_table_witness :
    SGSIPSetProto "Udp".toList "x".toList 7 = (SGSIPRetErr, "x".toList, 7) ∧
    (SGSIPSetProto "TLS".toList "x".toList 7).1 = SGSIPRetOK :=
  ⟨(SGSIPSetProto_table "Udp".toList "x".toList 7).2.1 (by decide),
   (SGSIPSetProto_table "TLS".toList "x".toList 7).1.mpr (by decide)⟩

/-- C10: for each of the two parsers and every input `s`, if parsing `s` into the
zero-valued record returns `SGSIPRetOK` with record `r`, then `r.val = s` exactly, and
parsing `r.val` again with the same parser into the zero-valued record returns
`SGSIPRetOK` with the same record `r`. -/
theorem parse_val_echo_idempotent (parseIP : GoString → Bool) :
    (∀ (s : GoString) (r : SGSIPSocketAddress),
      SGSIPParseSocketAddress parseIP s emptySocketAddress = some (SGSIPRetOK, r) →
        r.val = s ∧
        SGSIPParseSocketAddress parseIP r.val emptySocketAddress = some (SGSIPRetOK, r)) ∧
    (∀ (s : GoString) (r : SGSIPURI),
      SGSIPParseURI parseIP s emptyURI = some (SGSIPRetOK, r) →
        r.val = s ∧ SGSIPParseURI parseIP r.val emptyURI = some (SGSIPRetOK, r)) := by
  constructor
  · intro s r h
    have hv := SGSIPParseSocketAddress_val parseIP s emptySocketAddress r h
    exact ⟨hv, by rw [hv]; exact h⟩
  · intro s r h
    have hv := SGSIPParseURI_val parseIP s emptyURI r h
    exact ⟨hv, by rw [hv]; exact h⟩

/-- C10 at `udp:host.example:5070` and at `sip:alice@host.example;transport=tcp`: both
parse, and the theorem gives the echo of the input and the second parse. -/
theorem parse_val_echo_idempotent_witness :
    (∃ r, SGSIPParseSocketAddress netParseIP "udp:host.example:5070".toList
        emptySocketAddress = some (SGSIPRetOK, r) ∧
      r.val = "udp:host.example:5070".toList ∧
      SGSIPParseSocketAddress netParseIP r.val emptySocketAddress = some (SGSIPRetOK, r)) ∧
    (∃ r, SGSIPParseURI netParseIP "sip:alice@host.example;transport=tcp".toList
        emptyURI = some (SGSIPRetOK, r) ∧
      r.val = "sip:alice@host.example;transport=tcp".toList ∧
      SGSIPParseURI netParseIP r.val emptyURI = some (SGSIPRetOK, r)) :=
  ⟨⟨_, rfl, (parse_val_echo_idempotent netParseIP).1 _ _ rfl⟩,
   ⟨_, rfl, (parse_val_echo_idempotent netParseIP).2 _ _ rfl⟩⟩

/-! ## What each stage leaves untouched -/

theorem parseURIParams_frame (uristr pParams : GoString) (uri r : SGSIPURI) (ret : Int)
    (h : parseURIParams uristr pParams uri = some (ret, r)) :
    r.schema = uri.schema ∧ r.schemaid = uri.schemaid ∧ r.user = uri.user ∧
    r.uparams = uri.uparams ∧ r.addr = uri.addr ∧ r.atype = uri.atype ∧
    r.port = uri.port ∧ r.portno = uri.portno ∧
    (ret = SGSIPRetOK ∨ ret = SGSIPRetErr) ∧ (ret ≠ SGSIPRetOK → r.val = uri.val) := by
  unfold parseURIParams at h
  simp only [Option.bind_eq_bind, Option.pure_def] at h
  iterate 10
    all_goals
      try first
        | (rw [Option.bind_eq_some] at h; obtain ⟨_, -, h⟩ := h)
        | (split at h)
  all_goals
    simp at h
    obtain ⟨h1, h2⟩ := h
    subst h1 h2
    simp [SGSIPRetOK, SGSIPRetErr]

theorem parseURIPortParams_frame (uristr pPortParams : GoString) (uri r : SGSIPURI) (ret : Int)
    (h : parseURIPortParams uristr pPortParams uri = some (ret, r)) :
    r.schema = uri.schema ∧ r.schemaid = uri.schemaid ∧ r.user = uri.user ∧
    r.uparams = uri.uparams ∧ r.addr = uri.addr ∧ r.atype = uri.atype ∧
    (ret = SGSIPRetOK ∨ ret = SGSIPRetErr) ∧ (ret ≠ SGSIPRetOK → r.val = uri.val) := by
  unfold parseURIPortParams at h
  simp only [Option.bind_eq_bind, Option.pure_def] at h
  iterate 10
    all_goals
      try first
        | (rw [Option.bind_eq_some] at h; obtain ⟨_, -, h⟩ := h)
        | (split at h)
  all_goals first
    | (have hf := parseURIParams_frame _ _ _ _ _ h
       simp at hf
       tauto)
    | (simp at h
       obtain ⟨h1, h2⟩ := h
       subst h1 h2
       simp [SGSIPRetOK, SGSIPRetErr])

theorem parseURIHost_frame (parseIP : GoString → Bool) (uristr : GoString) (colPos scPos : Int)
    (pHostPP : GoString) (uri r : SGSIPURI) (ret : Int)
    (h : parseURIHost parseIP uristr colPos scPos pHostPP uri = some (ret, r)) :
    r.schema = uri.schema ∧ r.schemaid = uri.schemaid ∧ r.user = uri.user ∧
    r.uparams = uri.uparams ∧
    (ret = SGSIPRetOK ∨ ret = SGSIPRetErr) ∧ (ret ≠ SGSIPRetOK → r.val = uri.val) := by
  unfold parseURIHost at h
  simp only [Option.bind_eq_bind, Option.pure_def] at h
  iterate 10
    all_goals
      try first
        | (rw [Option.bind_eq_some] at h; obtain ⟨_, -, h⟩ := h)
        | (split at h)
  all_goals first
    | (have hf := parseURIPortParams_frame _ _ _ _ _ h
       simp at hf
       tauto)
    | (simp at h
       obtain ⟨h1, h2⟩ := h
       subst h1 h2
       simp [SGSIPRetOK, SGSIPRetErr])

theorem parseURIUser_frame (parseIP : GoString → Bool) (uristr rest : GoString)
    (uri r : SGSIPURI) (ret : Int)
    (h : parseURIUser parseIP uristr rest uri = some (ret, r)) :
    r.schema = uri.schema ∧ r.schemaid = uri.schemaid ∧
    (ret = SGSIPRetOK ∨ ret = SGSIPRetErr) ∧ (ret ≠ SGSIPRetOK → r.val = uri.val) := by
  unfold parseURIUser at h
  dsimp only at h
  simp only [Option.bind_eq_bind] at h
  by_cases h3 : Index rest "@".toList = 0
  · rw [if_pos h3] at h
    simp at h
    obtain ⟨h1, h2⟩ := h
    subst h1 h2
    simp
  rw [if_neg h3] at h
  by_cases h4 : Index rest "@".toList < 0 ∧ Index rest ":".toList < 0 ∧ Index rest ";".toList < 0
  · rw [if_pos h4] at h
    simp at h
    obtain ⟨h1, h2⟩ := h
    subst h1 h2
    simp
  rw [if_neg h4] at h
  by_cases h5 : Index rest "@".toList > 0
  · rw [if_pos h5, Option.bind_eq_some] at h
    obtain ⟨pUser, -, h⟩ := h
    rw [Option.bind_eq_some] at h
    obtain ⟨pHostPP, -, h⟩ := h
    by_cases h6 : Index pUser ";".toList = 0
    · rw [if_pos h6] at h
      simp at h
      obtain ⟨h1, h2⟩ := h
      subst h1 h2
      simp
    rw [if_neg h6, Option.bind_eq_some] at h
    obtain ⟨uri2, hu, h⟩ := h
    have hf := parseURIHost_frame _ _ _ _ _ _ _ _ h
    have hu2 : uri2.schema = uri.schema ∧ uri2.schemaid = uri.schemaid ∧
        uri2.val = uri.val := by
      by_cases h7 : Index pUser ";".toList < 0
      · rw [if_pos h7] at hu
        simp at hu
        subst hu
        simp
      · rw [if_neg h7] at hu
        simp only [Option.bind_eq_bind, Option.pure_def] at hu
        rw [Option.bind_eq_some] at hu
        obtain ⟨_, -, hu⟩ := hu
        rw [Option.bind_eq_some] at hu
        obtain ⟨_, -, hu⟩ := hu
        simp at hu
        subst hu
        simp
    obtain ⟨e1, e2, e3⟩ := hu2
    rw [e1, e2, e3] at hf
    tauto
  · rw [if_neg h5] at h
    have hf := parseURIHost_frame _ _ _ _ _ _ _ _ h
    tauto

theorem first_occurrence (c : Char) (s : GoString) :
    c ∉ s ∨ ∃ pre post, s = pre ++ c :: post ∧ c ∉ pre := by
  induction s with
  | nil => left; simp
  | cons x xs ih =>
    by_cases hx : c = x
    · right; exact ⟨[], xs, by simp [hx], by simp⟩
    · rcases ih with h | ⟨pre, post, rfl, hpre⟩
      · left; simp [hx, h]
      · right; exact ⟨x :: pre, post, by simp, by simp [hx, hpre]⟩

theorem SGSIPSetSchema_of_not_mem (t sv : GoString) (sid : Int) (h : t ∉ schemeSpellings) :
    SGSIPSetSchema t sv sid = (SGSIPRetErr, sv, sid) := by
  simp [schemeSpellings] at h
  simp [SGSIPSetSchema, h]

theorem SGSIPParseURI_no_colon (parseIP : GoString → Bool) (s : GoString) (uri : SGSIPURI)
    (h : ':' ∉ s) : SGSIPParseURI parseIP s uri = some (SGSIPRetErr, uri) := by
  simp [SGSIPParseURI, SplitN2_of_not_mem ':' s h]

theorem SGSIPParseURI_unknown_scheme (parseIP : GoString → Bool) (pre rest : GoString)
    (uri : SGSIPURI) (hcol : ':' ∉ pre) (h : pre ∉ schemeSpellings) :
    SGSIPParseURI parseIP (pre ++ ':' :: rest) uri = some (SGSIPRetErr, uri) := by
  simp [SGSIPParseURI, SplitN2_append ':' pre rest hcol,
    SGSIPSetSchema_of_not_mem pre uri.schema uri.schemaid h, SGSIPRetErr, SGSIPRetOK]

theorem schemeSpelling_table (S : GoString) (h : S ∈ schemeSpellings) :
    (lowerCase S = "sip".toList ∧ schemaIdOf (lowerCase S) = SchemaSIP) ∨
    (lowerCase S = "sips".toList ∧ schemaIdOf (lowerCase S) = SchemaSIPS) ∨
    (lowerCase S = "tel".toList ∧ schemaIdOf (lowerCase S) = SchemaTEL) := by
  simp only [schemeSpellings, List.mem_cons, List.mem_singleton, List.not_mem_nil, or_false] at h
  rcases h with rfl | rfl | rfl | rfl | rfl | rfl <;> decide

theorem parseSocketAddrPort_frame (parseIP : GoString → Bool)
    (sockstr strProto strAddrPort : GoString) (sa r : SGSIPSocketAddress) (ret : Int)
    (h : parseSocketAddrPort parseIP sockstr strProto strAddrPort sa = some (ret, r)) :
    (ret = SGSIPRetOK ∨ ret = SGSIPRetErr) ∧ (ret ≠ SGSIPRetOK → r.val = sa.val) := by
  unfold parseSocketAddrPort at h
  simp only [Option.bind_eq_bind, Option.pure_def] at h
  iterate 10
    all_goals
      try first
        | (rw [Option.bind_eq_some] at h; obtain ⟨_, -, h⟩ := h)
        | (split at h)
  all_goals
    simp at h
    obtain ⟨h1, h2⟩ := h
    subst h1 h2
    simp [SGSIPRetOK, SGSIPRetErr]

theorem SGSIPParseSocketAddress_frame (parseIP : GoString → Bool) (sockstr : GoString)
    (sa r : SGSIPSocketAddress) (ret : Int)
    (h : SGSIPParseSocketAddress parseIP sockstr sa = some (ret, r)) :
    (ret = SGSIPRetOK ∨ ret = SGSIPRetErr) ∧ (ret ≠ SGSIPRetOK → r.val = sa.val) := by
  unfold SGSIPParseSocketAddress at h
  simp only [Option.bind_eq_bind, Option.pure_def] at h
  iterate 10
    all_goals
      try first
        | (rw [Option.bind_eq_some] at h; obtain ⟨_, -, h⟩ := h)
        | (split at h)
  all_goals first
    | (have hf := parseSocketAddrPort_frame _ _ _ _ _ _ _ h
       simp at hf
       tauto)
    | (simp at h
       obtain ⟨h1, h2⟩ := h
       subst h1 h2
       simp [SGSIPRetOK, SGSIPRetErr])

theorem SGSIPParseURI_frame (parseIP : GoString → Bool) (uristr : GoString)
    (uri r : SGSIPURI) (ret : Int)
    (h : SGSIPParseURI parseIP uristr uri = some (ret, r)) :
    (ret = SGSIPRetOK ∨ ret = SGSIPRetErr) ∧ (ret ≠ SGSIPRetOK → r.val = uri.val) := by
  rcases first_occurrence ':' uristr with hno | ⟨pre, rest, rfl, hcol⟩
  · rw [SGSIPParseURI_no_colon parseIP uristr uri hno] at h
    simp at h
    obtain ⟨h1, h2⟩ := h
    subst h1 h2
    simp
  · by_cases hmem : pre ∈ schemeSpellings
    · rw [SGSIPParseURI_scheme _ _ _ _ hmem] at h
      have hf := parseURIUser_frame _ _ _ _ _ _ h
      simp only at hf
      exact ⟨hf.2.2.1, hf.2.2.2⟩
    · rw [SGSIPParseURI_unknown_scheme parseIP pre rest uri hcol hmem] at h
      simp at h
      obtain ⟨h1, h2⟩ := h
      subst h1 h2
      simp

theorem parseURIUser_no_user (parseIP : GoString → Bool) (uristr rest : GoString)
    (uri : SGSIPURI) (hat : '@' ∉ rest)
    (hnn : ¬ (Index rest [':'] < 0 ∧ Index rest [';'] < 0)) :
    parseURIUser parseIP uristr rest uri =
      parseURIHost parseIP uristr (Index rest [':']) (Index rest [';']) rest uri := by
  have h1 := Index_singleton_of_not_mem '@' rest hat
  unfold parseURIUser
  simp [h1, hnn]

theorem parseURIPortParams_colon (uristr X t : GoString) (uri : SGSIPURI)
    (hX : ';' ∉ X) (ht : t = [] ∨ t.head? = some ';') :
    parseURIPortParams uristr (':' :: (X ++ t)) uri =
      match Atoi X with
      | none => some (SGSIPRetErr, uri)
      | some i =>
        if i ≤ 0 then some (SGSIPRetErr, uri)
        else if t = [] then
          some (SGSIPRetOK,
            { uri with
              port := X, portno := i, proto := "udp".toList, protoid := ProtoUDP,
              val := uristr })
        else parseURIParams uristr t { uri with port := X, portno := i } := by
  have hsc : ';' ∉ ':' :: X := by simp [hX]
  rcases ht with rfl | ht
  · have hidx : Index (':' :: X) [';'] = -1 := Index_singleton_of_not_mem ';' _ hsc
    cases hA : Atoi X with
    | none => simp [parseURIPortParams, slice_zero_one_cons, hidx, sliceFrom_one_cons, hA]
    | some i =>
      by_cases hi : i ≤ 0
      · simp [parseURIPortParams, slice_zero_one_cons, hidx, sliceFrom_one_cons, hA, hi]
      · simp [parseURIPortParams, slice_zero_one_cons, hidx, sliceFrom_one_cons, hA, hi]
  · obtain ⟨t', rfl⟩ : ∃ t', t = ';' :: t' := by
      cases t with
      | nil => simp at ht
      | cons c t' => simp at ht; exact ⟨t', by rw [ht]⟩
    have hidx : Index (':' :: (X ++ ';' :: t')) [';'] = (X.length : Int) + 1 := by
      simpa using Index_singleton_append ';' (':' :: X) t' hsc
    have hnn : ¬ ((X.length : Int) + 1 < 0) := by omega
    cases hA : Atoi X with
    | none =>
      simp [parseURIPortParams, slice_zero_one_cons, hidx, hnn, slice_middle, hA]
    | some i =>
      by_cases hi : i ≤ 0
      · simp [parseURIPortParams, slice_zero_one_cons, hidx, hnn, slice_middle, hA, hi]
      · simp [parseURIPortParams, slice_zero_one_cons, hidx, hnn, slice_middle,
          sliceFrom_cons_append, hA, hi]

theorem parseSocketAddrPort_host_any (parseIP : GoString → Bool)
    (sockstr strProto H X : GoString) (sa : SGSIPSocketAddress)
    (hH : ':' ∉ H) (hb : H.head? ≠ some '[') :
    parseSocketAddrPort parseIP sockstr strProto (H ++ ':' :: X) sa =
      match Atoi X with
      | none => some (SGSIPRetErr, { sa with port := X })
      | some i =>
        some (SGSIPRetOK,
          { val := sockstr, proto := sa.proto, addr := H, port := X, portno := i,
            atype := SGAddrType parseIP H, protoid := sa.protoid }) := by
  have hsplit := SplitN2_append ':' H X hH
  cases hA : Atoi X with
  | none =>
    cases H with
    | nil =>
      simp only [List.nil_append] at hsplit ⊢
      simp [parseSocketAddrPort, slice_zero_one_cons, hsplit, hA]
    | cons c t =>
      have hc : c ≠ '[' := by simpa using hb
      simp only [List.cons_append] at hsplit ⊢
      simp [parseSocketAddrPort, slice_zero_one_cons, hsplit, hA, hc]
  | some i =>
    cases H with
    | nil =>
      simp only [List.nil_append] at hsplit ⊢
      simp [parseSocketAddrPort, slice_zero_one_cons, hsplit, hA]
    | cons c t =>
      have hc : c ≠ '[' := by simpa using hb
      simp only [List.cons_append] at hsplit ⊢
      simp [parseSocketAddrPort, slice_zero_one_cons, hsplit, hA, hc]

theorem SGSIPParseSocketAddress_proto (parseIP : GoString → Bool) (P rest : GoString)
    (r0 : SGSIPSocketAddress) (hP : P ∈ protoSpellings) :
    SGSIPParseSocketAddress parseIP (P ++ ':' :: rest) r0 =
      parseSocketAddrPort parseIP (P ++ ':' :: rest) P rest
        { r0 with proto := lowerCase P, protoid := protoIdOf (lowerCase P) } := by
  obtain ⟨⟨c, t, rfl, hc⟩, hPc, -, hset⟩ := protoSpelling_facts P hP
  have hsplit : SplitN2 (c :: (t ++ ':' :: rest)) [':'] = [c :: t, rest] := by
    simpa using SplitN2_append ':' (c :: t) rest hPc
  simp [SGSIPParseSocketAddress, slice_zero_one_cons, hc, hsplit, hset, SGSIPRetOK]

theorem SGSIPParseSocketAddress_no_proto (parseIP : GoString → Bool) (H rest : GoString)
    (r0 : SGSIPSocketAddress) (hH : ':' ∉ H) (hb : H.head? ≠ some '[')
    (hnot : H ∉ protoSpellings) :
    SGSIPParseSocketAddress parseIP (H ++ ':' :: rest) r0 =
      parseSocketAddrPort parseIP (H ++ ':' :: rest) [] (H ++ ':' :: rest)
        { r0 with proto := "udp".toList, protoid := ProtoUDP } := by
  have hset := SGSIPSetProto_of_not_mem H r0.proto r0.protoid hnot
  have hsplit := SplitN2_append ':' H rest hH
  cases H with
  | nil =>
    simp only [List.nil_append] at hsplit ⊢
    simp [SGSIPParseSocketAddress, slice_zero_one_cons, hsplit, hset, SGSIPRetOK, SGSIPRetErr]
  | cons c t =>
    have hc : c ≠ '[' := by simpa using hb
    simp only [List.cons_append] at hsplit ⊢
    simp [SGSIPParseSocketAddress, slice_zero_one_cons, hsplit, hset, SGSIPRetOK,
      SGSIPRetErr, hc]

theorem first_occurrence_unique (c : Char) :
    ∀ pre pre' post post' : GoString, pre ++ c :: post = pre' ++ c :: post' →
      c ∉ pre → c ∉ pre' → pre = pre' ∧ post = post' := by
  intro pre
  induction pre with
  | nil =>
    intro pre' post post' h _ h2
    cases pre' with
    | nil => simpa using h
    | cons y ys =>
      simp at h
      exact absurd (List.mem_cons.mpr (Or.inl h.1)) h2
  | cons x xs ih =>
    intro pre' post post' h h1 h2
    cases pre' with
    | nil =>
      simp at h
      exact absurd (List.mem_cons.mpr (Or.inl h.1.symm)) h1
    | cons y ys =>
      simp at h
      have h1' : c ∉ xs := fun hm => h1 (List.mem_cons_of_mem _ hm)
      have h2' : c ∉ ys := fun hm => h2 (List.mem_cons_of_mem _ hm)
      obtain ⟨e1, e2⟩ := ih ys post post' h.2 h1' h2'
      exact ⟨by rw [h.1, e1], e2⟩

theorem parseURIUser_with_params (parseIP : GoString → Bool) (uristr u p hostPP : GoString)
    (uri : SGSIPURI) (hu : u ≠ []) (hat : '@' ∉ u) (hpat : '@' ∉ p) (hsc : ';' ∉ u) :
    parseURIUser parseIP uristr (u ++ ';' :: (p ++ '@' :: hostPP)) uri =
      parseURIHost parseIP uristr (Index (u ++ ';' :: (p ++ '@' :: hostPP)) [':'])
        (Index (u ++ ';' :: (p ++ '@' :: hostPP)) [';']) hostPP
        { uri with user := u ++ [';'], uparams := p } := by
  have hpre : '@' ∉ u ++ ';' :: p := by simp [hat, hpat]
  have hat2 : Index (u ++ ';' :: (p ++ '@' :: hostPP)) ['@'] =
      ((u ++ ';' :: p).length : Int) := by
    simpa using Index_singleton_append '@' (u ++ ';' :: p) hostPP hpre
  have hlen : 0 < u.length := List.length_pos.mpr hu
  have hs1 : slice (u ++ ';' :: (p ++ '@' :: hostPP)) 0 ((u ++ ';' :: p).length : Int) =
      some (u ++ ';' :: p) := by
    simpa using slice_upto (u ++ ';' :: p) ('@' :: hostPP)
  have hs2 : sliceFrom (u ++ ';' :: (p ++ '@' :: hostPP))
      (((u ++ ';' :: p).length : Int) + 1) = some hostPP := by
    simpa using sliceFrom_append_cons (u ++ ';' :: p) '@' hostPP
  have hidx : Index (u ++ ';' :: p) [';'] = (u.length : Int) :=
    Index_singleton_append ';' u p hsc
  have hs3 : slice (u ++ ';' :: p) 0 ((u.length : Int) + 1) = some (u ++ [';']) := by
    simpa using slice_upto (u ++ [';']) p
  have hs4 : sliceFrom (u ++ ';' :: p) ((u.length : Int) + 1) = some p :=
    sliceFrom_append_cons u ';' p
  have h0 : ¬ (((u ++ ';' :: p).length : Int) = 0) := by simp; omega
  have h1 : ¬ (((u ++ ';' :: p).length : Int) < 0) := by omega
  have h2 : ((u ++ ';' :: p).length : Int) > 0 := by simp; omega
  have h3 : ¬ ((u.length : Int) = 0) := by omega
  have h4 : ¬ ((u.length : Int) < 0) := by omega
  unfold parseURIUser
  simp only [List.length_append, List.length_cons, Nat.cast_add, Nat.cast_one]
    at hat2 hs1 hs2 h0 h1 h2
  simp [hat2, hs1, hs2, hidx, hs3, hs4, h0, h1, h2, h3, h4]

theorem mem_colon_of_addrTypeScan (A : GoString) (h : addrTypeScan A = AFIPv6) : ':' ∈ A := by
  induction A with
  | nil => simp [addrTypeScan, AFNONE, AFIPv6] at h
  | cons c cs ih =>
    by_cases h1 : c = '.'
    · simp [addrTypeScan, h1, AFIPv4, AFIPv6] at h
    · by_cases h2 : c = ':'
      · simp [h2]
      · simp [addrTypeScan, h1, h2] at h
        exact List.mem_cons_of_mem _ (ih h)

theorem SGAddrType_IPv6 (parseIP : GoString → Bool) (A : GoString)
    (h : SGAddrType parseIP A = AFIPv6) : parseIP A = true ∧ ':' ∈ A := by
  unfold SGAddrType at h
  by_cases hp : parseIP A = false
  · simp [hp, AFHost, AFIPv6] at h
  · simp [hp] at h
    exact ⟨by simpa using hp, mem_colon_of_addrTypeScan A h⟩

theorem parseURIHost_wrapped (parseIP : GoString → Bool) (uristr : GoString)
    (colPos scPos : Int) (B : GoString) (uri : SGSIPURI)
    (hnn : ¬ (colPos < 0 ∧ scPos < 0)) :
    parseURIHost parseIP uristr colPos scPos ('[' :: (B ++ [']'])) uri =
      if SGAddrType parseIP ('[' :: (B ++ [']'])) ≠ AFIPv6 then
        some (SGSIPRetErr,
          { uri with
            addr := '[' :: (B ++ [']']), proto := "udp".toList, protoid := ProtoUDP,
            port := "5060".toList, portno := 5060,
            atype := SGAddrType parseIP ('[' :: (B ++ [']'])) })
      else
        some (SGSIPRetOK,
          { uri with
            addr := '[' :: (B ++ [']']), proto := "udp".toList, protoid := ProtoUDP,
            port := "5060".toList, portno := 5060,
            atype := SGAddrType parseIP ('[' :: (B ++ [']'])), val := uristr }) := by
  have hne : '[' :: (B ++ [']']) ≠ [] := by simp
  have hl : sliceFrom ('[' :: (B ++ [']'])) ((('[' :: (B ++ [']'])).length : Int) - 1) =
      some [']'] := by
    have := sliceFrom_length_sub_one ('[' :: (B ++ [']'])) hne
    simpa using this
  simp at hl
  unfold parseURIHost
  by_cases h6 : SGAddrType parseIP ('[' :: (B ++ [']'])) = AFIPv6 <;>
    simp [hnn, slice_zero_one_cons, hl, h6]

/-! ## Which socket addresses are accepted -/

theorem addrTypeScan_range (A : GoString) :
    addrTypeScan A = AFNONE ∨ addrTypeScan A = AFIPv4 ∨ addrTypeScan A = AFIPv6 := by
  induction A with
  | nil => simp [addrTypeScan]
  | cons c cs ih =>
    by_cases h1 : c = '.'
    · simp [addrTypeScan, h1]
    · by_cases h2 : c = ':'
      · simp [addrTypeScan, h2]
      · simpa [addrTypeScan, h1, h2] using ih

theorem SGAddrType_no_colon (parseIP : GoString → Bool) (A : GoString) (h : ':' ∉ A) :
    SGAddrType parseIP A ≠ AFIPv6 ∧
    (SGAddrType parseIP A = AFHost ∨ SGAddrType parseIP A = AFIPv4 ∨
      SGAddrType parseIP A = AFNONE) := by
  have h6 : addrTypeScan A ≠ AFIPv6 := fun e => h (mem_colon_of_addrTypeScan A e)
  unfold SGAddrType
  by_cases hp : parseIP A = false
  · simp [hp, AFHost, AFIPv6]
  · simp only [hp, if_false]
    rcases addrTypeScan_range A with e | e | e
    · exact ⟨h6, Or.inr (Or.inr e)⟩
    · exact ⟨h6, Or.inr (Or.inl e)⟩
    · exact absurd e h6

theorem parseSocketAddrPort_bracket_not_ok (parseIP : GoString → Bool)
    (hbr : ∀ s, parseIP ('[' :: s) = false)
    (sockstr strProto t : GoString) (sa r : SGSIPSocketAddress) :
    parseSocketAddrPort parseIP sockstr strProto ('[' :: t) sa ≠ some (SGSIPRetOK, r) := by
  intro h
  rcases first_occurrence ']' ('[' :: t) with hno | ⟨b, a1, hb, hnb⟩
  · have hsplit := SplitN2_of_not_mem ']' ('[' :: t) hno
    by_cases hsp : strProto = [] <;>
      simp [parseSocketAddrPort, slice_zero_one_cons, hsplit, hsp] at h
  · obtain ⟨b', rfl⟩ : ∃ b', b = '[' :: b' := by
      cases b with
      | nil => simp at hb
      | cons x xs =>
        simp at hb
        exact ⟨xs, by rw [hb.1]⟩
    have hsplit : SplitN2 ('[' :: t) [']'] = ['[' :: b', a1] := by
      rw [hb]
      exact SplitN2_append ']' ('[' :: b') a1 hnb
    have hty : SGAddrType parseIP ('[' :: (b' ++ [']'])) = AFHost := by
      simp [SGAddrType, hbr]
    have hne : AFHost ≠ AFIPv6 := by decide
    unfold parseSocketAddrPort at h
    simp [slice_zero_one_cons, hsplit, hty, hne] at h
    rw [Option.bind_eq_some] at h
    obtain ⟨np, -, h⟩ := h
    split at h
    · simp [SGSIPRetOK, SGSIPRetErr] at h
    · rw [Option.bind_eq_some] at h
      obtain ⟨port, -, h⟩ := h
      split at h <;> simp [SGSIPRetOK, SGSIPRetErr] at h

theorem parseSocketAddrPort_ok_inv (parseIP : GoString → Bool)
    (hbr : ∀ s, parseIP ('[' :: s) = false)
    (sockstr strProto sap : GoString) (sa r : SGSIPSocketAddress)
    (h : parseSocketAddrPort parseIP sockstr strProto sap sa = some (SGSIPRetOK, r)) :
    sap.head? ≠ some '[' ∧
    ∃ H X, sap = H ++ ':' :: X ∧ ':' ∉ H ∧ H.head? ≠ some '[' ∧ r.addr = H ∧
      r.atype = SGAddrType parseIP H := by
  cases sap with
  | nil => simp [parseSocketAddrPort, slice] at h
  | cons c t =>
    by_cases hc : c = '['
    · subst hc
      exact absurd h (parseSocketAddrPort_bracket_not_ok parseIP hbr _ _ _ _ _)
    · refine ⟨by simpa using hc, ?_⟩
      rcases first_occurrence ':' (c :: t) with hno | ⟨H, X, hH, hnH⟩
      · have hsplit := SplitN2_of_not_mem ':' (c :: t) hno
        simp [parseSocketAddrPort, slice_zero_one_cons, hsplit, hc] at h
      · have hHb : H.head? ≠ some '[' := by
          cases H with
          | nil => simp
          | cons x xs =>
            simp at hH
            simp [← hH.1, hc]
        rw [hH, parseSocketAddrPort_host_any _ _ _ _ _ _ hnH hHb] at h
        cases hA : Atoi X with
        | none => simp [hA, SGSIPRetOK, SGSIPRetErr] at h
        | some i =>
          simp [hA] at h
          exact ⟨H, X, hH, hnH, hHb, by rw [← h], by rw [← h]⟩

theorem wrapped_shape (s : GoString) (h1 : s.head? = some '[') (h2 : s.getLast? = some ']') :
    ∃ B, s = '[' :: (B ++ [']']) := by
  cases s with
  | nil => simp at h1
  | cons c t =>
    simp at h1
    subst h1
    rcases List.eq_nil_or_concat t with ht | ⟨B, d, rfl⟩
    · subst ht
      simp at h2
    · have h3 : ('[' :: (B ++ [d])).getLast? = some d := by
        rw [show '[' :: (B ++ [d]) = ('[' :: B) ++ [d] by simp,
          List.getLast?_append_of_ne_nil _ (by simp)]
        simp
      rw [List.concat_eq_append, h3] at h2
      injection h2 with h2
      subst h2
      exact ⟨B, by simp⟩

theorem SGSIPParseSocketAddress_wrapped (parseIP : GoString → Bool) (B : GoString)
    (r0 : SGSIPSocketAddress) :
    SGSIPParseSocketAddress parseIP ('[' :: (B ++ [']'])) r0 =
      if SGAddrType parseIP r0.addr ≠ AFIPv6 then
        some (SGSIPRetErr, { r0 with atype := SGAddrType parseIP r0.addr })
      else
        some (SGSIPRetOK,
          { val := '[' :: (B ++ [']']), proto := "udp".toList, addr := '[' :: (B ++ [']']),
            port := "5060".toList, portno := 5060, atype := SGAddrType parseIP r0.addr,
            protoid := ProtoUDP }) := by
  have hne : '[' :: (B ++ [']']) ≠ [] := by simp
  have hl : sliceFrom ('[' :: (B ++ [']'])) ((('[' :: (B ++ [']'])).length : Int) - 1) =
      some [']'] := by
    have := sliceFrom_length_sub_one ('[' :: (B ++ [']'])) hne
    simpa using this
  simp at hl
  unfold SGSIPParseSocketAddress
  by_cases h6 : SGAddrType parseIP r0.addr = AFIPv6 <;>
    simp [slice_zero_one_cons, hl, h6]

theorem SGSIPParseSocketAddress_not_wrapped (parseIP : GoString → Bool) (s : GoString)
    (r0 : SGSIPSocketAddress) (hne : s ≠ [])
    (hwrap : ¬ (s.head? = some '[' ∧ s.getLast? = some ']')) :
    SGSIPParseSocketAddress parseIP s r0 =
      if (SplitN2 s [':']).length = 1 then
        some (SGSIPRetOK,
          { val := s, proto := "udp".toList, addr := s, port := "5060".toList,
            portno := 5060, atype := SGAddrType parseIP s, protoid := ProtoUDP })
      else
        (SplitN2 s [':'])[0]?.bind fun strProto =>
          (SplitN2 s [':'])[1]?.bind fun strAddrPort =>
            if (SGSIPSetProto strProto r0.proto r0.protoid).1 ≠ SGSIPRetOK then
              parseSocketAddrPort parseIP s [] s
                { r0 with proto := "udp".toList, protoid := ProtoUDP }
            else
              parseSocketAddrPort parseIP s strProto strAddrPort
                { r0 with
                  proto := (SGSIPSetProto strProto r0.proto r0.protoid).2.1,
                  protoid := (SGSIPSetProto strProto r0.proto r0.protoid).2.2 } := by
  obtain ⟨c, t, rfl⟩ := List.exists_cons_of_ne_nil hne
  have hlast := sliceFrom_length_sub_one (c :: t) hne
  have hgl : (c :: t).getLast? = some ((c :: t).getLast hne) := List.getLast?_eq_getLast _ _
  rw [hgl] at hwrap
  unfold SGSIPParseSocketAddress
  by_cases hc : c = '['
  · subst hc
    have hl : (('[' :: t).getLast hne) ≠ ']' := by
      intro h; apply hwrap; simp [h]
    have hlast2 : sliceFrom ('[' :: t) (t.length : Int) = some [('[' :: t).getLast hne] := by
      simpa using hlast
    simp [slice_zero_one_cons, hlast2, hl]
  · simp [slice_zero_one_cons, hc]

theorem addrTypeScan_eq_find (t : GoString) :
    addrTypeScan t =
      match t.find? (fun c => c = '.' || c = ':') with
      | some c => if c = '.' then AFIPv4 else AFIPv6
      | none => AFNONE := by
  induction t with
  | nil => rfl
  | cons c cs ih =>
    by_cases h1 : c = '.'
    · simp [addrTypeScan, h1, List.find?]
    · by_cases h2 : c = ':'
      · subst h2
        simp [addrTypeScan, List.find?]
      · simp [addrTypeScan, h1, h2, List.find?, ih]

theorem addrTypeScan_first_dot (pre post : GoString) (h1 : '.' ∉ pre) (h2 : ':' ∉ pre) :
    addrTypeScan (pre ++ '.' :: post) = AFIPv4 := by
  induction pre with
  | nil => simp [addrTypeScan]
  | cons c cs ih =>
    simp only [List.mem_cons, not_or] at h1 h2
    have e1 : c ≠ '.' := fun e => h1.1 e.symm
    have e2 : c ≠ ':' := fun e => h2.1 e.symm
    simp [addrTypeScan, e1, e2, ih h1.2 h2.2]

theorem addrTypeScan_first_colon (pre post : GoString) (h1 : '.' ∉ pre) (h2 : ':' ∉ pre) :
    addrTypeScan (pre ++ ':' :: post) = AFIPv6 := by
  induction pre with
  | nil => simp [addrTypeScan]
  | cons c cs ih =>
    simp only [List.mem_cons, not_or] at h1 h2
    have e1 : c ≠ '.' := fun e => h1.1 e.symm
    have e2 : c ≠ ':' := fun e => h2.1 e.symm
    simp [addrTypeScan, e1, e2, ih h1.2 h2.2]

theorem addrTypeScan_none_iff (t : GoString) :
    addrTypeScan t = AFNONE ↔ '.' ∉ t ∧ ':' ∉ t := by
  induction t with
  | nil => simp [addrTypeScan]
  | cons c cs ih =>
    by_cases h1 : c = '.'
    · simp [addrTypeScan, h1, AFIPv4, AFNONE]
    · by_cases h2 : c = ':'
      · simp [addrTypeScan, h2, AFIPv6, AFNONE]
      · have e1 : ¬ '.' = c := fun e => h1 e.symm
        have e2 : ¬ ':' = c := fun e => h2 e.symm
        simp [addrTypeScan, h1, h2, ih, e1, e2]

theorem addrTypeScan_ne_host (t : GoString) : addrTypeScan t ≠ AFHost := by
  rcases addrTypeScan_range t with e | e | e <;> rw [e] <;> decide

theorem parseAddrDispatch_has_sep (whole : GoString) :
    ∀ t : GoString, parseAddrDispatch whole t = true → '.' ∈ t ∨ ':' ∈ t := by
  intro t
  induction t with
  | nil => intro h; simp [parseAddrDispatch] at h
  | cons c cs ih =>
    intro h
    by_cases h1 : c = '.'
    · simp [h1]
    · by_cases h2 : c = ':'
      · simp [h2]
      · by_cases h3 : c = '%'
        · simp [parseAddrDispatch, h3] at h
        · simp [parseAddrDispatch, h1, h2, h3] at h
          rcases ih h with e | e
          · exact Or.inl (List.mem_cons_of_mem _ e)
          · exact Or.inr (List.mem_cons_of_mem _ e)

theorem netParseIP_has_sep (u : GoString) (h : netParseIP u = true) : '.' ∈ u ∨ ':' ∈ u :=
  parseAddrDispatch_has_sep u u h

/-! ## Lemmas on `strings.Index` with a longer separator and on `strings.Split` -/

theorem indexOpt_cons (sep : GoString) (c : Char) (cs : GoString) :
    indexOpt sep (c :: cs) =
      if sep.isPrefixOf (c :: cs) then some 0 else (indexOpt sep cs).map (· + 1) := rfl

theorem indexOpt_nil_of_ne (sep : GoString) (hsep : sep ≠ []) : indexOpt sep [] = none := by
  simp [indexOpt, hsep]

theorem indexOpt_self_append (sep post : GoString) (hsep : sep ≠ []) :
    indexOpt sep (sep ++ post) = some 0 := by
  obtain ⟨c, tl, rfl⟩ := List.exists_cons_of_ne_nil hsep
  have h : (c :: tl).isPrefixOf (c :: (tl ++ post)) = true := by
    rw [List.isPrefixOf_iff_prefix]
    exact ⟨post, by simp⟩
  rw [List.cons_append, indexOpt_cons, if_pos h]

theorem indexOpt_append_skip (sep : GoString) :
    ∀ pre rest : GoString,
      (∀ v u, pre = v ++ u → u ≠ [] → ¬ sep <+: (u ++ rest)) →
      indexOpt sep (pre ++ rest) = (indexOpt sep rest).map (· + pre.length) := by
  intro pre
  induction pre with
  | nil =>
    intro rest _
    simp
  | cons x xs ih =>
    intro rest h
    have h0 : ¬ (sep.isPrefixOf (x :: (xs ++ rest)) = true) := by
      have := h [] (x :: xs) (by simp) (by simp)
      rw [← List.isPrefixOf_iff_prefix] at this
      exact this
    have h1 : ∀ v u, xs = v ++ u → u ≠ [] → ¬ sep <+: (u ++ rest) := by
      intro v u hvu hu
      exact h (x :: v) u (by simp [hvu]) hu
    rw [List.cons_append, indexOpt_cons, if_neg h0, ih rest h1]
    cases indexOpt sep rest with
    | none => rfl
    | some k =>
      simp only [Option.map_some', List.length_cons]
      rfl

theorem indexOpt_no_occurrence (sep s : GoString) (hsep : sep ≠ []) (h : ¬ sep <:+: s) :
    indexOpt sep s = none := by
  have := indexOpt_append_skip sep s [] (by
    intro v u hvu _ hpre
    obtain ⟨z, hz⟩ := hpre
    apply h
    refine ⟨v, z, ?_⟩
    rw [hvu, ← (by simpa using hz : sep ++ z = u)]
    simp)
  simpa [indexOpt_nil_of_ne sep hsep] using this

theorem indexOpt_first (c : Char) (tl pre post : GoString) (hc : c ∉ tl)
    (hpre : ¬ (c :: tl) <:+: pre) :
    indexOpt (c :: tl) (pre ++ ((c :: tl) ++ post)) = some pre.length := by
  have := indexOpt_append_skip (c :: tl) pre ((c :: tl) ++ post) (by
    intro v u hvu hu hp
    obtain ⟨z, hz⟩ := hp
    rcases List.append_eq_append_iff.mp hz with ⟨a, ha, -⟩ | ⟨b, hb, hb2⟩
    · exact hpre ⟨v, a, by rw [hvu, ha]; simp⟩
    · cases b with
      | nil =>
        exact hpre ⟨v, [], by rw [hvu, hb]; simp⟩
      | cons d ds =>
        cases u with
        | nil => exact hu rfl
        | cons w ws =>
          simp only [List.cons_append, List.cons.injEq] at hb hb2
          have hd : d = c := hb2.1.symm
          have hmem : d ∈ tl := by rw [hb.2]; simp
          exact hc (hd ▸ hmem))
  rw [indexOpt_self_append (c :: tl) post (by simp)] at this
  simpa using this

theorem indexOpt_sound (sep : GoString) :
    ∀ (s : GoString) (m : Nat), indexOpt sep s = some m → ∃ z, s = s.take m ++ sep ++ z := by
  intro s
  induction s with
  | nil =>
    intro m h
    by_cases hs : sep = []
    · simp [indexOpt, hs] at h
      exact ⟨[], by simp [hs]⟩
    · simp [indexOpt, hs] at h
  | cons x xs ih =>
    intro m h
    rw [indexOpt_cons] at h
    by_cases hp : sep.isPrefixOf (x :: xs) = true
    · rw [if_pos hp] at h
      injection h with h
      subst h
      rw [List.isPrefixOf_iff_prefix] at hp
      obtain ⟨z, hz⟩ := hp
      exact ⟨z, by simp [hz]⟩
    · rw [if_neg hp] at h
      cases hk : indexOpt sep xs with
      | none => simp [hk] at h
      | some k =>
        simp [hk] at h
        subst h
        obtain ⟨z, hz⟩ := ih k hk
        refine ⟨z, ?_⟩
        simp only [List.take_succ_cons, List.cons_append, List.cons.injEq, true_and]
        simpa using hz

theorem splitLoop_no_occurrence (sep s : GoString) (n : Nat) (h : indexOpt sep s = none) :
    splitLoop sep n s = [s] := by
  cases n with
  | zero => rfl
  | succ k => simp [splitLoop, h]

theorem splitLoop_head (sep s : GoString) (n : Nat) :
    ∃ x rest, splitLoop sep n s = x :: rest ∧
      (x = s ∨ ∃ m, indexOpt sep s = some m ∧ x = s.take m) := by
  cases n with
  | zero => exact ⟨s, [], rfl, Or.inl rfl⟩
  | succ k =>
    cases hk : indexOpt sep s with
    | none => exact ⟨s, [], by simp [splitLoop, hk], Or.inl rfl⟩
    | some m =>
      exact ⟨s.take m, splitLoop sep k (s.drop (m + sep.length)), by simp [splitLoop, hk],
        Or.inr ⟨m, rfl, rfl⟩⟩

theorem takeWhile_append_stop (p : Char → Bool) (c : Char) (hc : p c = false) :
    ∀ a b : GoString, (a ++ c :: b).takeWhile p = a.takeWhile p := by
  intro a
  induction a with
  | nil => intro b; simp [List.takeWhile, hc]
  | cons x xs ih =>
    intro b
    by_cases hx : p x = true
    · simp [List.takeWhile, hx, ih b]
    · simp [List.takeWhile, hx]

theorem takeWhile_of_not_mem (c : Char) (a : GoString) (h : c ∉ a) :
    a.takeWhile (fun x => x ≠ c) = a := by
  induction a with
  | nil => rfl
  | cons x xs ih =>
    simp only [List.mem_cons, not_or] at h
    have hx : x ≠ c := fun e => h.1 e.symm
    rw [List.takeWhile_cons_of_pos (by simpa using hx), ih h.2]

theorem upto_stop (c : Char) (a : GoString) :
    (if Index a [c] < 0 then some a else slice a 0 (Index a [c])) =
      some (a.takeWhile (fun x => x ≠ c)) := by
  rcases first_occurrence c a with hno | ⟨u, v, rfl, hu⟩
  · rw [Index_singleton_of_not_mem c a hno, takeWhile_of_not_mem c a hno]
    simp
  · have h1 : ¬ ((u.length : Int) < 0) := by omega
    rw [Index_singleton_append c u v hu, if_neg h1, slice_upto,
      takeWhile_append_stop _ c (by simp) u v, takeWhile_of_not_mem c u hu]

theorem Split_no_occurrence (sep s : GoString) (hsep : sep ≠ []) (h : ¬ sep <:+: s) :
    Split s sep = [s] :=
  splitLoop_no_occurrence sep s _ (indexOpt_no_occurrence sep s hsep h)

theorem Split_first (c : Char) (tl pre post : GoString) (hc : c ∉ tl)
    (hpre : ¬ (c :: tl) <:+: pre) :
    ∃ x rest, Split (pre ++ ((c :: tl) ++ post)) (c :: tl) = pre :: x :: rest ∧
      x.takeWhile (fun y => y ≠ c) = post.takeWhile (fun y => y ≠ c) := by
  have hidx := indexOpt_first c tl pre post hc hpre
  obtain ⟨n, hn⟩ : ∃ n, (pre ++ ((c :: tl) ++ post)).length = n + 1 :=
    ⟨pre.length + tl.length + post.length, by simp; omega⟩
  obtain ⟨x, rest, hx, hcase⟩ := splitLoop_head (c :: tl) post n
  have htake : (pre ++ ((c :: tl) ++ post)).take pre.length = pre := by simp
  have hdrop : (pre ++ ((c :: tl) ++ post)).drop (pre.length + (c :: tl).length) = post := by
    rw [← List.append_assoc, ← List.length_append, List.drop_left]
  refine ⟨x, rest, ?_, ?_⟩
  · unfold Split
    rw [hn]
    simp only [splitLoop, hidx, htake, hdrop, hx]
  · rcases hcase with rfl | ⟨m, hm, rfl⟩
    · rfl
    · obtain ⟨z, hz⟩ := indexOpt_sound (c :: tl) post m hm
      have hz2 : post = post.take m ++ c :: (tl ++ z) := by simpa using hz
      conv_rhs => rw [hz2]
      rw [takeWhile_append_stop _ c (by simp)]

theorem parseURIParams_no_transport (uristr t' : GoString) (uri : SGSIPURI)
    (h : ¬ ";transport=".toList <:+: ';' :: t') :
    parseURIParams uristr (';' :: t') uri =
      some (SGSIPRetOK,
        { uri with
          proto := "udp".toList, protoid := ProtoUDP, params := t', val := uristr }) := by
  have hsplit := Split_no_occurrence ";transport=".toList (';' :: t') (by decide) h
  simp only [String.toList] at hsplit
  simp [parseURIParams, sliceFrom_one_cons, hsplit]

theorem parseURIParams_first_transport (uristr t' pre post : GoString) (uri : SGSIPURI)
    (ht : ';' :: t' = pre ++ ";transport=".toList ++ post)
    (hpre : ¬ ";transport=".toList <:+: pre) :
    parseURIParams uristr (';' :: t') uri =
      if post.takeWhile (fun y => y ≠ ';') ∈ protoSpellings then
        some (SGSIPRetOK,
          { uri with
            proto := lowerCase (post.takeWhile (fun y => y ≠ ';')),
            protoid := protoIdOf (lowerCase (post.takeWhile (fun y => y ≠ ';'))),
            params := t', val := uristr })
      else
        some (SGSIPRetErr,
          { uri with proto := "udp".toList, protoid := ProtoUDP, params := t' }) := by
  obtain ⟨x, rest, hx, hK⟩ := Split_first ';' "transport=".toList pre post (by decide) hpre
  have ht2 : ';' :: t' = pre ++ ((';' :: "transport=".toList) ++ post) := by simpa using ht
  rw [← ht2] at hx
  have hup := upto_stop ';' x
  rw [hK] at hup
  generalize post.takeWhile (fun y => decide (y ≠ ';')) = K at hup ⊢
  have hx2 : Split (';' :: t') [';', 't', 'r', 'a', 'n', 's', 'p', 'o', 'r', 't', '='] =
      pre :: x :: rest := hx
  by_cases hmem : K ∈ protoSpellings
  · have hset := (protoSpelling_facts K hmem).2.2.2
    simp [parseURIParams, sliceFrom_one_cons, hx2, hup, hset, hmem, SGSIPRetOK]
  · have hset := SGSIPSetProto_of_not_mem K "udp".toList ProtoUDP hmem
    simp at hset
    simp [parseURIParams, sliceFrom_one_cons, hx2, hup, hset, hmem, SGSIPRetOK, SGSIPRetErr]

/-! ## The claims of the specification, C11 to C20 -/

/-- C11, as stated, fails: on `sip:host.example:notaport` the URI parser returns
`SGSIPRetErr` and leaves `schema`, `schemaid`, `addr` and `atype` written in a record that
was empty; on `host.example:notaport` the socket-address parser returns `SGSIPRetErr` and
leaves `proto`, `protoid` and `port` written. -/
theorem parse_error_record_changed :
    SGSIPParseURI netParseIP "sip:host.example:notaport".toList emptyURI =
      some (SGSIPRetErr,
        { emptyURI with
          schema := "sip".toList, schemaid := SchemaSIP, addr := "host.example".toList,
          atype := AFHost }) ∧
    ({ emptyURI with
        schema := "sip".toList, schemaid := SchemaSIP, addr := "host.example".toList,
        atype := AFHost } : SGSIPURI) ≠ emptyURI ∧
    SGSIPParseSocketAddress netParseIP "host.example:notaport".toList emptySocketAddress =
      some (SGSIPRetErr,
        { emptySocketAddress with
          proto := "udp".toList, protoid := ProtoUDP, port := "notaport".toList }) ∧
    ({ emptySocketAddress with
        proto := "udp".toList, protoid := ProtoUDP, port := "notaport".toList } :
      SGSIPSocketAddress) ≠ emptySocketAddress := by
  refine ⟨rfl, by decide, rfl, by decide⟩

/-- C11, amended: a failing call leaves `val` as it was; other fields may be written.
For each of the two parsers, every input and every initial record on which the call
returns, the code is `SGSIPRetOK` or `SGSIPRetErr`, and if it is not `SGSIPRetOK` the field
`val` of the output record is the one passed in.  Failing calls do return: for every host
`H` without `:` that does not start with `[` and every `X` that is no integer,
`SGSIPParseSocketAddress` on `H:X` (`H` no protocol spelling) and on `P:H:X` (`P` a
protocol spelling) returns `SGSIPRetErr` with `proto`, `protoid` and `port` written and
the rest as passed in; `SGSIPParseURI` returns `SGSIPRetErr` with the record as passed in
on an input without `:` or with an unknown scheme, and with `schema`, `schemaid`, `addr`
and `atype` written, the rest as passed in, on `S:H:X` whose `X` is no positive integer
(`H` without `@`, `:`, `;`, not starting with `[`; `X` without `;`, `@`). -/
theorem parse_error_keeps_val (parseIP : GoString → Bool) :
    (∀ (s : GoString) (r0 r : SGSIPSocketAddress) (ret : Int),
      SGSIPParseSocketAddress parseIP s r0 = some (ret, r) →
        (ret = SGSIPRetOK ∨ ret = SGSIPRetErr) ∧ (ret ≠ SGSIPRetOK → r.val = r0.val)) ∧
    (∀ (s : GoString) (r0 r : SGSIPURI) (ret : Int),
      SGSIPParseURI parseIP s r0 = some (ret, r) →
        (ret = SGSIPRetOK ∨ ret = SGSIPRetErr) ∧ (ret ≠ SGSIPRetOK → r.val = r0.val)) ∧
    (∀ (H X : GoString) (r0 : SGSIPSocketAddress),
      ':' ∉ H → H.head? ≠ some '[' → Atoi X = none →
        (H ∉ protoSpellings →
          SGSIPParseSocketAddress parseIP (H ++ ":".toList ++ X) r0 =
            some (SGSIPRetErr,
              { r0 with proto := "udp".toList, protoid := ProtoUDP, port := X })) ∧
        (∀ P ∈ protoSpellings,
          SGSIPParseSocketAddress parseIP (P ++ ":".toList ++ H ++ ":".toList ++ X) r0 =
            some (SGSIPRetErr,
              { r0 with
                proto := lowerCase P, protoid := protoIdOf (lowerCase P), port := X }))) ∧
    (∀ (s : GoString) (uri : SGSIPURI),
      ':' ∉ s → SGSIPParseURI parseIP s uri = some (SGSIPRetErr, uri)) ∧
    (∀ (pre rest : GoString) (uri : SGSIPURI),
      ':' ∉ pre → pre ∉ schemeSpellings →
        SGSIPParseURI parseIP (pre ++ ":".toList ++ rest) uri = some (SGSIPRetErr, uri)) ∧
    (∀ (S H X : GoString) (uri : SGSIPURI),
      S ∈ schemeSpellings → '@' ∉ H → ':' ∉ H → ';' ∉ H → H.head? ≠ some '[' →
      ';' ∉ X → '@' ∉ X → (Atoi X = none ∨ ∃ i, Atoi X = some i ∧ i ≤ 0) →
        SGSIPParseURI parseIP (S ++ ":".toList ++ H ++ ":".toList ++ X) uri =
          some (SGSIPRetErr,
            { uri with
              schema := lowerCase S, schemaid := schemaIdOf (lowerCase S), addr := H,
              atype := SGAddrType parseIP H })) := by
  refine ⟨fun s r0 r ret h => SGSIPParseSocketAddress_frame parseIP s r0 r ret h,
    fun s r0 r ret h => SGSIPParseURI_frame parseIP s r0 r ret h, ?_,
    fun s uri h => SGSIPParseURI_no_colon parseIP s uri h, ?_, ?_⟩
  · intro H X r0 hH hb hA
    constructor
    · intro hnot
      have hin : H ++ ":".toList ++ X = H ++ ':' :: X := by simp
      rw [hin, SGSIPParseSocketAddress_no_proto _ _ _ _ hH hb hnot,
        parseSocketAddrPort_host_any _ _ _ _ _ _ hH hb]
      simp [hA]
    · intro P hP
      have hin : P ++ ":".toList ++ H ++ ":".toList ++ X = P ++ ':' :: (H ++ ':' :: X) := by
        simp
      rw [hin, SGSIPParseSocketAddress_proto _ _ _ _ hP,
        parseSocketAddrPort_host_any _ _ _ _ _ _ hH hb]
      simp [hA]
  · intro pre rest uri hcol hpre
    have hin : pre ++ ":".toList ++ rest = pre ++ ':' :: rest := by simp
    rw [hin]
    exact SGSIPParseURI_unknown_scheme parseIP pre rest uri hcol hpre
  · intro S H X uri hS hHat hHcol hHsc hHb hXsc hXat hX
    have hin : S ++ ":".toList ++ H ++ ":".toList ++ X =
        S ++ ':' :: (H ++ ':' :: (X ++ [])) := by simp
    have hat : '@' ∉ H ++ ':' :: (X ++ []) := by simp [hHat, hXat]
    have hnn : ¬ (Index (H ++ ':' :: (X ++ [])) [':'] < 0 ∧
        Index (H ++ ':' :: (X ++ [])) [';'] < 0) := by
      have := Index_singleton_nonneg ':' (H ++ ':' :: (X ++ [])) (by simp)
      omega
    rw [hin, SGSIPParseURI_scheme _ _ _ _ hS, parseURIUser_no_user _ _ _ _ hat hnn,
      parseURIHost_plain _ _ _ _ _ _ _ _ hnn hHb hHcol hHsc (Or.inl rfl),
      parseURIPortParams_colon _ _ _ _ hXsc (Or.inl rfl)]
    rcases hX with hA | ⟨i, hA, hi⟩
    · simp [hA]
    · simp [hA, hi]

/-- C11 amended, at `host.example:notaport` and `sip:host.example:notaport` with records
whose `val` holds `old`: both calls fail, fields other than `val` are written and `val`
is still `old`; and `tcp:host.example:notaport`, `host.example` and `xmpp:host.example`
fail as the families say. -/
theorem parse_error_keeps_val_witness :
    (SGSIPParseSocketAddress netParseIP "host.example:notaport".toList
        { emptySocketAddress with val := "old".toList } =
      some (SGSIPRetErr,
        { emptySocketAddress with
          val := "old".toList, proto := "udp".toList, protoid := ProtoUDP,
          port := "notaport".toList }) ∧
      ({ emptySocketAddress with
          val := "old".toList, proto := "udp".toList, protoid := ProtoUDP,
          port := "notaport".toList } : SGSIPSocketAddress).val =
        ({ emptySocketAddress with val := "old".toList } : SGSIPSocketAddress).val) ∧
    (SGSIPParseURI netParseIP "sip:host.example:notaport".toList
        { emptyURI with val := "old".toList } =
      some (SGSIPRetErr,
        { emptyURI with
          val := "old".toList, schema := "sip".toList, schemaid := SchemaSIP,
          addr := "host.example".toList, atype := AFHost }) ∧
      ({ emptyURI with
          val := "old".toList, schema := "sip".toList, schemaid := SchemaSIP,
          addr := "host.example".toList, atype := AFHost } : SGSIPURI).val =
        ({ emptyURI with val := "old".toList } : SGSIPURI).val) ∧
    SGSIPParseSocketAddress netParseIP "tcp:host.example:notaport".toList
        { emptySocketAddress with val := "old".toList } =
      some (SGSIPRetErr,
        { emptySocketAddress with
          val := "old".toList, proto := "tcp".toList, protoid := ProtoTCP,
          port := "notaport".toList }) ∧
    SGSIPParseURI netParseIP "host.example".toList { emptyURI with val := "old".toList } =
      some (SGSIPRetErr, { emptyURI with val := "old".toList }) ∧
    SGSIPParseURI netParseIP "xmpp:host.example".toList
        { emptyURI with val := "old".toList } =
      some (SGSIPRetErr, { emptyURI with val := "old".toList }) :=
  ⟨⟨((parse_error_keeps_val netParseIP).2.2.1 "host.example".toList "notaport".toList
      { emptySocketAddress with val := "old".toList } (by decide) (by decide)
      (by decide)).1 (by decide),
    ((parse_error_keeps_val netParseIP).1 "host.example:notaport".toList
      { emptySocketAddress with val := "old".toList } _ SGSIPRetErr rfl).2 (by decide)⟩,
   ⟨(parse_error_keeps_val netParseIP).2.2.2.2.2 "sip".toList "host.example".toList
      "notaport".toList { emptyURI with val := "old".toList } (by decide) (by decide)
      (by decide) (by decide) (by decide) (by decide) (by decide) (Or.inl (by decide)),
    ((parse_error_keeps_val netParseIP).2.1 "sip:host.example:notaport".toList
      { emptyURI with val := "old".toList } _ SGSIPRetErr rfl).2 (by decide)⟩,
   ((parse_error_keeps_val netParseIP).2.2.1 "host.example".toList "notaport".toList
      { emptySocketAddress with val := "old".toList } (by decide) (by decide)
      (by decide)).2 "tcp".toList (by decide),
   (parse_error_keeps_val netParseIP).2.2.2.1 "host.example".toList
      { emptyURI with val := "old".toList } (by decide),
   (parse_error_keeps_val netParseIP).2.2.2.2.1 "xmpp".toList "host.example".toList
      { emptyURI with val := "old".toList } (by decide) (by decide)⟩

/-- C12: an empty user part is rejected.  For every scheme spelling `S`, every text `r`,
every `r1` without `@`, every `r2` and every output record, `SGSIPParseURI` on `S:@r` and
on `S:;r1@r2` (user part beginning with `;`) returns `SGSIPRetErr`; only `schema` and
`schemaid` have been written by then. -/
theorem parseURI_empty_user_rejected (parseIP : GoString → Bool) (S r r1 r2 : GoString)
    (uri : SGSIPURI) (hS : S ∈ schemeSpellings) (h1 : '@' ∉ r1) :
    SGSIPParseURI parseIP (S ++ ":@".toList ++ r) uri =
      some (SGSIPRetErr,
        { uri with schema := lowerCase S, schemaid := schemaIdOf (lowerCase S) }) ∧
    SGSIPParseURI parseIP (S ++ ":;".toList ++ r1 ++ "@".toList ++ r2) uri =
      some (SGSIPRetErr,
        { uri with schema := lowerCase S, schemaid := schemaIdOf (lowerCase S) }) := by
  constructor
  · have hin : S ++ ":@".toList ++ r = S ++ ':' :: ('@' :: r) := by simp
    have hat : Index ('@' :: r) ['@'] = 0 := by
      simpa using Index_singleton_append '@' [] r (by simp)
    rw [hin, SGSIPParseURI_scheme _ _ _ _ hS]
    unfold parseURIUser
    simp [hat]
  · have hin : S ++ ":;".toList ++ r1 ++ "@".toList ++ r2 =
        S ++ ':' :: (';' :: (r1 ++ '@' :: r2)) := by simp
    have hpre : '@' ∉ ';' :: r1 := by simp [h1]
    have hat : Index (';' :: (r1 ++ '@' :: r2)) ['@'] = (r1.length : Int) + 1 := by
      simpa using Index_singleton_append '@' (';' :: r1) r2 hpre
    have hsl : slice (';' :: (r1 ++ '@' :: r2)) 0 ((r1.length : Int) + 1) = some (';' :: r1) := by
      simpa using slice_upto (';' :: r1) ('@' :: r2)
    have hsf : sliceFrom (';' :: (r1 ++ '@' :: r2)) ((r1.length : Int) + 1 + 1) = some r2 := by
      simpa using sliceFrom_append_cons (';' :: r1) '@' r2
    have hsc : Index (';' :: r1) [';'] = 0 := by
      simpa using Index_singleton_append ';' [] r1 (by simp)
    have h0 : ¬ ((r1.length : Int) + 1 = 0) := by omega
    have h2 : ¬ ((r1.length : Int) + 1 < 0) := by omega
    have h3 : (0 : Int) < (r1.length : Int) + 1 := by omega
    rw [hin, SGSIPParseURI_scheme _ _ _ _ hS]
    unfold parseURIUser
    simp [hat, hsl, hsf, hsc, h0, h2, h3]

/-- C12 at `sip:@host.example` and at `sip:;x=1@host.example`. -/
theorem parseURI_empty_user_rejected_witness :
    SGSIPParseURI netParseIP "sip:@host.example".toList emptyURI =
      some (SGSIPRetErr, { emptyURI with schema := "sip".toList, schemaid := SchemaSIP }) ∧
    SGSIPParseURI netParseIP "sip:;x=1@host.example".toList emptyURI =
      some (SGSIPRetErr, { emptyURI with schema := "sip".toList, schemaid := SchemaSIP }) :=
  parseURI_empty_user_rejected netParseIP "sip".toList "host.example".toList "x=1".toList
    "host.example".toList emptyURI (by decide) (by decide)

/-- C13: URI ports must be strictly positive integers.  For every scheme spelling `S`,
every host `H` without `@`, `:`, `;` that does not start with `[`, every port text `X`
without `;` and `@`, every tail `t` without `@` that is empty or starts with `;`, and every
output record: if `SGSIPParseURI` on `S:H:X t` returns `SGSIPRetOK`, then `strconv.Atoi`
reads `X` as an integer, `portno` is that integer, it is `> 0`, and `port = X`; and if
`X` is not an integer (non-numeric or empty) or is zero or negative, the call returns
`SGSIPRetErr`. -/
theorem parseURI_port_positive (parseIP : GoString → Bool) (S H X t : GoString)
    (uri : SGSIPURI) (hS : S ∈ schemeSpellings)
    (hHat : '@' ∉ H) (hHcol : ':' ∉ H) (hHsc : ';' ∉ H) (hHb : H.head? ≠ some '[')
    (hXsc : ';' ∉ X) (hXat : '@' ∉ X) (ht : t = [] ∨ t.head? = some ';') (htat : '@' ∉ t) :
    (∀ r, SGSIPParseURI parseIP (S ++ ":".toList ++ H ++ ":".toList ++ X ++ t) uri =
        some (SGSIPRetOK, r) →
      ∃ i, Atoi X = some i ∧ r.portno = i ∧ 0 < i ∧ r.port = X) ∧
    ((Atoi X = none ∨ ∃ i, Atoi X = some i ∧ i ≤ 0) →
      SGSIPParseURI parseIP (S ++ ":".toList ++ H ++ ":".toList ++ X ++ t) uri =
        some (SGSIPRetErr,
          { uri with
            schema := lowerCase S, schemaid := schemaIdOf (lowerCase S), addr := H,
            atype := SGAddrType parseIP H })) := by
  have hin : S ++ ":".toList ++ H ++ ":".toList ++ X ++ t =
      S ++ ':' :: (H ++ ':' :: (X ++ t)) := by simp
  have hat : '@' ∉ H ++ ':' :: (X ++ t) := by simp [hHat, hXat, htat]
  have hnn : ¬ (Index (H ++ ':' :: (X ++ t)) [':'] < 0 ∧
      Index (H ++ ':' :: (X ++ t)) [';'] < 0) := by
    have := Index_singleton_nonneg ':' (H ++ ':' :: (X ++ t)) (by simp)
    omega
  rw [hin, SGSIPParseURI_scheme _ _ _ _ hS, parseURIUser_no_user _ _ _ _ hat hnn,
    parseURIHost_plain _ _ _ _ _ _ _ _ hnn hHb hHcol hHsc (Or.inl rfl),
    parseURIPortParams_colon _ _ _ _ hXsc ht]
  constructor
  · intro r h
    cases hA : Atoi X with
    | none => simp [hA, SGSIPRetOK, SGSIPRetErr] at h
    | some i =>
      simp only [hA] at h
      by_cases hi : i ≤ 0
      · simp [hi, SGSIPRetOK, SGSIPRetErr] at h
      · rw [if_neg hi] at h
        refine ⟨i, rfl, ?_, by omega, ?_⟩
        · by_cases ht0 : t = []
          · rw [if_pos ht0] at h
            simp at h
            rw [← h]
          · rw [if_neg ht0] at h
            exact (parseURIParams_frame _ _ _ _ _ h).2.2.2.2.2.2.2.1
        · by_cases ht0 : t = []
          · rw [if_pos ht0] at h
            simp at h
            rw [← h]
          · rw [if_neg ht0] at h
            exact (parseURIParams_frame _ _ _ _ _ h).2.2.2.2.2.2.1
  · rintro (hA | ⟨i, hA, hi⟩)
    · simp [hA]
    · simp [hA, hi]

/-- C13 at `sip:host.example:notaport`, `sip:host.example:` (empty port), `sip:h:0` and
`sip:h:-7;lr`: all four return `SGSIPRetErr`; and `sip:h:5070;lr` returns `SGSIPRetOK`
with `portno = 5070`. -/
theorem parseURI_port_positive_witness :
    SGSIPParseURI netParseIP "sip:host.example:notaport".toList emptyURI =
      some (SGSIPRetErr,
        { emptyURI with
          schema := "sip".toList, schemaid := SchemaSIP, addr := "host.example".toList,
          atype := AFHost }) ∧
    SGSIPParseURI netParseIP "sip:host.example:".toList emptyURI =
      some (SGSIPRetErr,
        { emptyURI with
          schema := "sip".toList, schemaid := SchemaSIP, addr := "host.example".toList,
          atype := AFHost }) ∧
    SGSIPParseURI netParseIP "sip:h:0".toList emptyURI =
      some (SGSIPRetErr,
        { emptyURI with
          schema := "sip".toList, schemaid := SchemaSIP, addr := "h".toList,
          atype := AFHost }) ∧
    SGSIPParseURI netParseIP "sip:h:-7;lr".toList emptyURI =
      some (SGSIPRetErr,
        { emptyURI with
          schema := "sip".toList, schemaid := SchemaSIP, addr := "h".toList,
          atype := AFHost }) ∧
    (∃ r, SGSIPParseURI netParseIP "sip:h:5070;lr".toList emptyURI = some (SGSIPRetOK, r) ∧
      ∃ i, Atoi "5070".toList = some i ∧ r.portno = i ∧ 0 < i ∧ r.port = "5070".toList) :=
  ⟨(parseURI_port_positive netParseIP "sip".toList "host.example".toList "notaport".toList []
      emptyURI (by decide) (by decide) (by decide) (by decide) (by decide) (by decide)
      (by decide) (by decide) (by decide)).2 (Or.inl (by decide)),
   (parseURI_port_positive netParseIP "sip".toList "host.example".toList [] []
      emptyURI (by decide) (by decide) (by decide) (by decide) (by decide) (by decide)
      (by decide) (by decide) (by decide)).2 (Or.inl (by decide)),
   (parseURI_port_positive netParseIP "sip".toList "h".toList "0".toList []
      emptyURI (by decide) (by decide) (by decide) (by decide) (by decide) (by decide)
      (by decide) (by decide) (by decide)).2 (Or.inr ⟨0, by decide, by decide⟩),
   (parseURI_port_positive netParseIP "sip".toList "h".toList "-7".toList ";lr".toList
      emptyURI (by decide) (by decide) (by decide) (by decide) (by decide) (by decide)
      (by decide) (by decide) (by decide)).2 (Or.inr ⟨-7, by decide, by decide⟩),
   ⟨_, rfl,
    (parseURI_port_positive netParseIP "sip".toList "h".toList "5070".toList ";lr".toList
      emptyURI (by decide) (by decide) (by decide) (by decide) (by decide) (by decide)
      (by decide) (by decide) (by decide)).1 _ rfl⟩⟩

/-- C14: scheme gate of the URI parser.  For every input and every output record,
`SGSIPParseURI` returns `SGSIPRetErr` (leaving the record as it was) when the input holds
no `:` and when the text before its first `:` is not one of sip/SIP/sips/SIPS/tel/TEL; and
whenever it returns `SGSIPRetOK`, the text before the first `:` is one of the six
spellings, `schema` is its lower-case form and `schemaid` the matching one of `SchemaSIP`,
`SchemaSIPS`, `SchemaTEL`. -/
theorem parseURI_scheme_gate (parseIP : GoString → Bool) (s : GoString) (uri : SGSIPURI) :
    (':' ∉ s → SGSIPParseURI parseIP s uri = some (SGSIPRetErr, uri)) ∧
    (∀ pre rest, s = pre ++ ":".toList ++ rest → ':' ∉ pre → pre ∉ schemeSpellings →
      SGSIPParseURI parseIP s uri = some (SGSIPRetErr, uri)) ∧
    (∀ r, SGSIPParseURI parseIP s uri = some (SGSIPRetOK, r) →
      ∃ pre rest, s = pre ++ ":".toList ++ rest ∧ ':' ∉ pre ∧ pre ∈ schemeSpellings ∧
        r.schema = lowerCase pre ∧ r.schemaid = schemaIdOf (lowerCase pre) ∧
        ((r.schema = "sip".toList ∧ r.schemaid = SchemaSIP) ∨
         (r.schema = "sips".toList ∧ r.schemaid = SchemaSIPS) ∨
         (r.schema = "tel".toList ∧ r.schemaid = SchemaTEL))) := by
  refine ⟨SGSIPParseURI_no_colon parseIP s uri, ?_, ?_⟩
  · intro pre rest hs hcol hnot
    have hs2 : s = pre ++ ':' :: rest := by simpa using hs
    rw [hs2]
    exact SGSIPParseURI_unknown_scheme parseIP pre rest uri hcol hnot
  · intro r h
    rcases first_occurrence ':' s with hno | ⟨pre, rest, rfl, hcol⟩
    · rw [SGSIPParseURI_no_colon parseIP s uri hno] at h
      simp [SGSIPRetOK, SGSIPRetErr] at h
    · by_cases hmem : pre ∈ schemeSpellings
      · rw [SGSIPParseURI_scheme _ _ _ _ hmem] at h
        have hf := parseURIUser_frame _ _ _ _ _ _ h
        simp only at hf
        have ht := schemeSpelling_table pre hmem
        rw [← hf.2.1, ← hf.1] at ht
        exact ⟨pre, rest, by simp, hcol, hmem, hf.1, hf.2.1, ht⟩
      · rw [SGSIPParseURI_unknown_scheme parseIP pre rest uri hcol hmem] at h
        simp [SGSIPRetOK, SGSIPRetErr] at h

/-- C14 at `xmpp:host.example`, at `host.example` (no colon) and at `SIPS:host.example`. -/
theorem parseURI_scheme_gate_witness :
    SGSIPParseURI netParseIP "xmpp:host.example".toList emptyURI = some (SGSIPRetErr, emptyURI) ∧
    SGSIPParseURI netParseIP "host.example".toList emptyURI = some (SGSIPRetErr, emptyURI) ∧
    (∃ r, SGSIPParseURI netParseIP "SIPS:host.example".toList emptyURI = some (SGSIPRetOK, r) ∧
      r.schema = "sips".toList ∧ r.schemaid = SchemaSIPS) :=
  ⟨(parseURI_scheme_gate netParseIP "xmpp:host.example".toList emptyURI).2.1
      "xmpp".toList "host.example".toList (by decide) (by decide) (by decide),
   (parseURI_scheme_gate netParseIP "host.example".toList emptyURI).1 (by decide),
   ⟨_, rfl, by decide, by decide⟩⟩

/-- C15, as stated, fails: the socket-address parser accepts a zero and a negative port
(`host.example:0` and `udp:host.example:-5` return `SGSIPRetOK` with `portno` 0 and -5);
and an input of the form `H:X` whose `H` is itself a protocol spelling is read as
protocol and address: `udp:host:5060` returns `SGSIPRetOK` although `host:5060` is no
integer. -/
theorem parseSocketAddress_accepts_nonpositive_port :
    SGSIPParseSocketAddress netParseIP "host.example:0".toList emptySocketAddress =
      some (SGSIPRetOK,
        { val := "host.example:0".toList, proto := "udp".toList,
          addr := "host.example".toList, port := "0".toList, portno := 0, atype := AFHost,
          protoid := ProtoUDP }) ∧
    SGSIPParseSocketAddress netParseIP "udp:host.example:-5".toList emptySocketAddress =
      some (SGSIPRetOK,
        { val := "udp:host.example:-5".toList, proto := "udp".toList,
          addr := "host.example".toList, port := "-5".toList, portno := -5,
          atype := AFHost, protoid := ProtoUDP }) ∧
    Atoi "host:5060".toList = none ∧
    SGSIPParseSocketAddress netParseIP "udp:host:5060".toList emptySocketAddress =
      some (SGSIPRetOK,
        { val := "udp:host:5060".toList, proto := "udp".toList, addr := "host".toList,
          port := "5060".toList, portno := 5060, atype := AFHost, protoid := ProtoUDP }) := by
  refine ⟨rfl, rfl, rfl, rfl⟩

/-- C15, amended: the socket-address parser rejects a non-numeric port, and only that.
For every host `H` without `:` that does not start with `[`, every port text `X` and
every output record: on `H:X` when `H` is not itself a protocol spelling, and on `P:H:X`
for every known protocol spelling `P`, if `SGSIPParseSocketAddress` returns `SGSIPRetOK`
then `strconv.Atoi` reads `X` as an integer, `portno` is that integer and `port = X`;
if `X` is not an integer the call returns `SGSIPRetErr`; and if `X` is an integer `i`,
be it positive, zero or negative, the call returns `SGSIPRetOK` with `portno = i`,
`port = X`, `addr = H` and `val` the input.  So the call returns `SGSIPRetOK` exactly when
`X` is an integer. -/
theorem parseSocketAddress_port_numeric (parseIP : GoString → Bool) (H X : GoString)
    (r0 : SGSIPSocketAddress) (hH : ':' ∉ H) (hb : H.head? ≠ some '[') :
    (H ∉ protoSpellings →
      (∀ r, SGSIPParseSocketAddress parseIP (H ++ ":".toList ++ X) r0 = some (SGSIPRetOK, r) →
        ∃ i, Atoi X = some i ∧ r.portno = i ∧ r.port = X) ∧
      (Atoi X = none →
        SGSIPParseSocketAddress parseIP (H ++ ":".toList ++ X) r0 =
          some (SGSIPRetErr,
            { r0 with proto := "udp".toList, protoid := ProtoUDP, port := X })) ∧
      (∀ i, Atoi X = some i →
        SGSIPParseSocketAddress parseIP (H ++ ":".toList ++ X) r0 =
          some (SGSIPRetOK,
            { val := H ++ ":".toList ++ X, proto := "udp".toList, addr := H, port := X,
              portno := i, atype := SGAddrType parseIP H, protoid := ProtoUDP })) ∧
      ((∃ r, SGSIPParseSocketAddress parseIP (H ++ ":".toList ++ X) r0 =
          some (SGSIPRetOK, r)) ↔ Atoi X ≠ none)) ∧
    (∀ P ∈ protoSpellings,
      (∀ r, SGSIPParseSocketAddress parseIP (P ++ ":".toList ++ H ++ ":".toList ++ X) r0 =
          some (SGSIPRetOK, r) →
        ∃ i, Atoi X = some i ∧ r.portno = i ∧ r.port = X) ∧
      (Atoi X = none →
        SGSIPParseSocketAddress parseIP (P ++ ":".toList ++ H ++ ":".toList ++ X) r0 =
          some (SGSIPRetErr,
            { r0 with
              proto := lowerCase P, protoid := protoIdOf (lowerCase P), port := X })) ∧
      (∀ i, Atoi X = some i →
        SGSIPParseSocketAddress parseIP (P ++ ":".toList ++ H ++ ":".toList ++ X) r0 =
          some (SGSIPRetOK,
            { val := P ++ ":".toList ++ H ++ ":".toList ++ X, proto := lowerCase P,
              addr := H, port := X, portno := i, atype := SGAddrType parseIP H,
              protoid := protoIdOf (lowerCase P) })) ∧
      ((∃ r, SGSIPParseSocketAddress parseIP (P ++ ":".toList ++ H ++ ":".toList ++ X) r0 =
          some (SGSIPRetOK, r)) ↔ Atoi X ≠ none)) := by
  constructor
  · intro hnot
    have hin : H ++ ":".toList ++ X = H ++ ':' :: X := by simp
    rw [hin, SGSIPParseSocketAddress_no_proto _ _ _ _ hH hb hnot,
      parseSocketAddrPort_host_any _ _ _ _ _ _ hH hb]
    refine ⟨?_, ?_, ?_, ?_⟩
    · intro r h
      cases hA : Atoi X with
      | none => simp [hA, SGSIPRetOK, SGSIPRetErr] at h
      | some i =>
        simp [hA] at h
        exact ⟨i, rfl, by rw [← h], by rw [← h]⟩
    · intro hA
      simp [hA]
    · intro i hA
      simp [hA]
    · cases hA : Atoi X with
      | none => simp [SGSIPRetOK, SGSIPRetErr]
      | some i => simp
  · intro P hP
    have hin : P ++ ":".toList ++ H ++ ":".toList ++ X = P ++ ':' :: (H ++ ':' :: X) := by simp
    rw [hin, SGSIPParseSocketAddress_proto _ _ _ _ hP,
      parseSocketAddrPort_host_any _ _ _ _ _ _ hH hb]
    refine ⟨?_, ?_, ?_, ?_⟩
    · intro r h
      cases hA : Atoi X with
      | none => simp [hA, SGSIPRetOK, SGSIPRetErr] at h
      | some i =>
        simp [hA] at h
        exact ⟨i, rfl, by rw [← h], by rw [← h]⟩
    · intro hA
      simp [hA]
    · intro i hA
      simp [hA]
    · cases hA : Atoi X with
      | none => simp [SGSIPRetOK, SGSIPRetErr]
      | some i => simp

/-- C15 amended, at `host.example:notaport` and `tcp:host.example:notaport` (both return
`SGSIPRetErr`), at `host.example:0` (accepted, `portno = 0`) and at `udp:host.example:-5`
(accepted, `portno = -5`). -/
theorem parseSocketAddress_port_numeric_witness :
    SGSIPParseSocketAddress netParseIP "host.example:notaport".toList emptySocketAddress =
      some (SGSIPRetErr,
        { emptySocketAddress with
          proto := "udp".toList, protoid := ProtoUDP, port := "notaport".toList }) ∧
    SGSIPParseSocketAddress netParseIP "tcp:host.example:notaport".toList
        emptySocketAddress =
      some (SGSIPRetErr,
        { emptySocketAddress with
          proto := "tcp".toList, protoid := ProtoTCP, port := "notaport".toList }) ∧
    SGSIPParseSocketAddress netParseIP "host.example:0".toList emptySocketAddress =
      some (SGSIPRetOK,
        { val := "host.example:0".toList, proto := "udp".toList,
          addr := "host.example".toList, port := "0".toList, portno := 0,
          atype := AFHost, protoid := ProtoUDP }) ∧
    SGSIPParseSocketAddress netParseIP "udp:host.example:-5".toList emptySocketAddress =
      some (SGSIPRetOK,
        { val := "udp:host.example:-5".toList, proto := "udp".toList,
          addr := "host.example".toList, port := "-5".toList, portno := -5,
          atype := AFHost, protoid := ProtoUDP }) ∧
    (∃ r, SGSIPParseSocketAddress netParseIP "host.example:0".toList emptySocketAddress =
        some (SGSIPRetOK, r) ∧
      ∃ i, Atoi "0".toList = some i ∧ r.portno = i ∧ r.port = "0".toList) :=
  ⟨((parseSocketAddress_port_numeric netParseIP "host.example".toList "notaport".toList
      emptySocketAddress (by decide) (by decide)).1 (by decide)).2.1 (by decide),
   ((parseSocketAddress_port_numeric netParseIP "host.example".toList "notaport".toList
      emptySocketAddress (by decide) (by decide)).2 "tcp".toList (by decide)).2.1
      (by decide),
   ((parseSocketAddress_port_numeric netParseIP "host.example".toList "0".toList
      emptySocketAddress (by decide) (by decide)).1 (by decide)).2.2.1 0 (by decide),
   ((parseSocketAddress_port_numeric netParseIP "host.example".toList "-5".toList
      emptySocketAddress (by decide) (by decide)).2 "udp".toList (by decide)).2.2.1 (-5)
      (by decide),
   ⟨_, rfl,
    ((parseSocketAddress_port_numeric netParseIP "host.example".toList "0".toList
      emptySocketAddress (by decide) (by decide)).1 (by decide)).1 _ rfl⟩⟩

/-- C16: transport override from the parameter list.  For every scheme spelling `S`, every
host `H` without `@`, `:`, `;` that does not start with `[`, and every parameter tail `t`
that starts with `;` and holds no `@`, `SGSIPParseURI` on `S:H t` with the zero-valued
record behaves as follows.  If `t` does not contain `;transport=`, it returns
`SGSIPRetOK` with `proto = udp`, `protoid = ProtoUDP`.  Otherwise let `K` be the text
after the first occurrence of `;transport=` up to the next `;` or the end of `t`: when
`K` is a known protocol spelling the call returns `SGSIPRetOK` with `proto` the lower-case
`K` and `protoid` its id, and when it is not the call returns `SGSIPRetErr`.  In every
successful case `params` is `t` without its leading `;`. -/
theorem parseURI_transport_override (parseIP : GoString → Bool) (S H t : GoString)
    (hS : S ∈ schemeSpellings)
    (hHat : '@' ∉ H) (hHcol : ':' ∉ H) (hHsc : ';' ∉ H) (hHb : H.head? ≠ some '[')
    (ht : t.head? = some ';') (htat : '@' ∉ t) :
    (¬ ";transport=".toList <:+: t →
      ∃ r, SGSIPParseURI parseIP (S ++ ":".toList ++ H ++ t) emptyURI =
          some (SGSIPRetOK, r) ∧
        r.proto = "udp".toList ∧ r.protoid = ProtoUDP ∧ r.params = t.tail ∧ r.addr = H) ∧
    (∀ pre post, t = pre ++ ";transport=".toList ++ post → ¬ ";transport=".toList <:+: pre →
      (post.takeWhile (fun y => y ≠ ';') ∈ protoSpellings →
        ∃ r, SGSIPParseURI parseIP (S ++ ":".toList ++ H ++ t) emptyURI =
            some (SGSIPRetOK, r) ∧
          r.proto = lowerCase (post.takeWhile (fun y => y ≠ ';')) ∧
          r.protoid = protoIdOf (lowerCase (post.takeWhile (fun y => y ≠ ';'))) ∧
          r.params = t.tail ∧ r.addr = H) ∧
      (post.takeWhile (fun y => y ≠ ';') ∉ protoSpellings →
        ∃ r, SGSIPParseURI parseIP (S ++ ":".toList ++ H ++ t) emptyURI =
            some (SGSIPRetErr, r))) := by
  obtain ⟨t', rfl⟩ : ∃ t', t = ';' :: t' := by
    cases t with
    | nil => simp at ht
    | cons c t' =>
      simp at ht
      exact ⟨t', by rw [ht]⟩
  have hin : S ++ ":".toList ++ H ++ ';' :: t' = S ++ ':' :: (H ++ ';' :: t') := by simp
  have hat : '@' ∉ H ++ ';' :: t' := by
    intro hm
    rcases List.mem_append.mp hm with h1 | h1
    · exact hHat h1
    · exact htat h1
  have hnn : ¬ (Index (H ++ ';' :: t') [':'] < 0 ∧ Index (H ++ ';' :: t') [';'] < 0) := by
    have := Index_singleton_nonneg ';' (H ++ ';' :: t') (by simp)
    omega
  rw [hin, SGSIPParseURI_scheme _ _ _ _ hS, parseURIUser_no_user _ _ _ _ hat hnn,
    parseURIHost_plain _ _ _ _ _ _ _ _ hnn hHb hHcol hHsc (Or.inr rfl),
    parseURIPortParams_params]
  constructor
  · intro hno
    rw [parseURIParams_no_transport _ _ _ hno]
    exact ⟨_, rfl, rfl, rfl, rfl, rfl⟩
  · intro pre post hpp hpre
    rw [parseURIParams_first_transport _ _ pre post _ hpp hpre]
    constructor
    · intro hK
      rw [if_pos hK]
      exact ⟨_, rfl, rfl, rfl, rfl, rfl⟩
    · intro hK
      rw [if_neg hK]
      exact ⟨_, rfl⟩

/-- C16 at `sip:host.example;lr` (no transport parameter), at
`sip:host.example;lr;transport=TLS;x=1` (transport token `TLS`) and at
`sip:host.example;transport=quic` (unknown token). -/
theorem parseURI_transport_override_witness :
    (∃ r, SGSIPParseURI netParseIP "sip:host.example;lr".toList emptyURI =
        some (SGSIPRetOK, r) ∧
      r.proto = "udp".toList ∧ r.protoid = ProtoUDP ∧ r.params = "lr".toList ∧
      r.addr = "host.example".toList) ∧
    (∃ r, SGSIPParseURI netParseIP "sip:host.example;lr;transport=TLS;x=1".toList emptyURI =
        some (SGSIPRetOK, r) ∧
      r.proto = "tls".toList ∧ r.protoid = ProtoTLS ∧
      r.params = "lr;transport=TLS;x=1".toList ∧ r.addr = "host.example".toList) ∧
    (∃ r, SGSIPParseURI netParseIP "sip:host.example;transport=quic".toList emptyURI =
        some (SGSIPRetErr, r)) :=
  ⟨(parseURI_transport_override netParseIP "sip".toList "host.example".toList ";lr".toList
      (by decide) (by decide) (by decide) (by decide) (by decide) (by decide)
      (by decide)).1 (by decide),
   ((parseURI_transport_override netParseIP "sip".toList "host.example".toList
      ";lr;transport=TLS;x=1".toList
      (by decide) (by decide) (by decide) (by decide) (by decide) (by decide)
      (by decide)).2 ";lr".toList "TLS;x=1".toList (by decide) (by decide)).1 (by decide),
   ((parseURI_transport_override netParseIP "sip".toList "host.example".toList
      ";transport=quic".toList
      (by decide) (by decide) (by decide) (by decide) (by decide) (by decide)
      (by decide)).2 [] "quic".toList (by decide) (by decide)).2 (by decide)⟩

/-- C17: user / user-parameter split.  For every scheme spelling `S`, every user part `UP`
without `@` that is not empty and does not start with `;`, every host `H` without `:`,
`;` that does not start with `[`, and every digit string `D` of at most 9 digits that
denotes a positive integer, `SGSIPParseURI` on `S:UP@H:D` with the zero-valued record
returns `SGSIPRetOK` with `addr = H` and `user` followed by `uparams` equal to `UP`: if
`UP` holds no `;` then `user = UP` and `uparams` is empty; otherwise `user` is `UP` up to
and including its first `;` and `uparams` is the text after that `;`. -/
theorem parseURI_user_split (parseIP : GoString → Bool) (S UP H D : GoString)
    (hS : S ∈ schemeSpellings) (hUP : UP ≠ []) (hUPat : '@' ∉ UP)
    (hUPsc : UP.head? ≠ some ';')
    (hHcol : ':' ∉ H) (hHsc : ';' ∉ H) (hHb : H.head? ≠ some '[')
    (hdig : IsDigits D) (hlen : D.length ≤ 9) (hpos : 0 < decimalValue D) :
    ∃ r, SGSIPParseURI parseIP (S ++ ":".toList ++ UP ++ "@".toList ++ H ++ ":".toList ++ D)
        emptyURI = some (SGSIPRetOK, r) ∧
      r.user ++ r.uparams = UP ∧ r.addr = H ∧
      (';' ∉ UP → r.user = UP ∧ r.uparams = []) ∧
      (∀ u p, UP = u ++ ";".toList ++ p → ';' ∉ u →
        r.user = u ++ ";".toList ∧ r.uparams = p) := by
  have hD : D ≠ [] := by
    rintro rfl
    simp [decimalValue] at hpos
  have hin : S ++ ":".toList ++ UP ++ "@".toList ++ H ++ ":".toList ++ D =
      S ++ ':' :: (UP ++ '@' :: (H ++ ':' :: D)) := by simp
  have hnn : ¬ (Index (UP ++ '@' :: (H ++ ':' :: D)) [':'] < 0 ∧
      Index (UP ++ '@' :: (H ++ ':' :: D)) [';'] < 0) := by
    have := Index_singleton_nonneg ':' (UP ++ '@' :: (H ++ ':' :: D)) (by simp)
    omega
  rw [hin, SGSIPParseURI_scheme _ _ _ _ hS]
  rcases first_occurrence ';' UP with hno | ⟨u0, p0, rfl, hu0⟩
  · rw [parseURIUser_plain _ _ _ _ _ hUP hUPat hno,
      parseURIHost_plain _ _ _ _ _ _ _ _ hnn hHb hHcol hHsc (Or.inl rfl),
      parseURIPortParams_port _ _ _ hD hdig hlen hpos]
    refine ⟨_, rfl, by simp [emptyURI], rfl, fun _ => ⟨rfl, by simp [emptyURI]⟩, ?_⟩
    intro u p hup _
    exact absurd (by rw [hup]; simp) hno
  · have hu0ne : u0 ≠ [] := by
      rintro rfl
      simp at hUPsc
    have hat0 : '@' ∉ u0 := fun hm => hUPat (by simp [hm])
    have hatp : '@' ∉ p0 := fun hm => hUPat (by simp [hm])
    have hin2 : (u0 ++ ';' :: p0) ++ '@' :: (H ++ ':' :: D) =
        u0 ++ ';' :: (p0 ++ '@' :: (H ++ ':' :: D)) := by simp
    rw [hin2] at hnn ⊢
    rw [parseURIUser_with_params _ _ _ _ _ _ hu0ne hat0 hatp hu0,
      parseURIHost_plain _ _ _ _ _ _ _ _ hnn hHb hHcol hHsc (Or.inl rfl),
      parseURIPortParams_port _ _ _ hD hdig hlen hpos]
    refine ⟨_, rfl, by simp, rfl, fun hno => absurd (by simp) hno, ?_⟩
    intro u p hup hu
    have hup2 : u0 ++ ';' :: p0 = u ++ ';' :: p := by simpa using hup
    obtain ⟨e1, e2⟩ := first_occurrence_unique ';' u0 u p0 p hup2 hu0 hu
    subst e1 e2
    simp

/-- C17 at `sip:alice;day=tuesday@host.example:5070` and at
`sip:alice@host.example:5070`. -/
theorem parseURI_user_split_witness :
    (∃ r, SGSIPParseURI netParseIP "sip:alice;day=tuesday@host.example:5070".toList
        emptyURI = some (SGSIPRetOK, r) ∧
      r.user ++ r.uparams = "alice;day=tuesday".toList ∧ r.addr = "host.example".toList ∧
      r.user = "alice;".toList ∧ r.uparams = "day=tuesday".toList) ∧
    (∃ r, SGSIPParseURI netParseIP "sip:alice@host.example:5070".toList emptyURI =
        some (SGSIPRetOK, r) ∧
      r.user = "alice".toList ∧ r.uparams = []) := by
  obtain ⟨r, h1, h2, h3, -, h5⟩ := parseURI_user_split netParseIP "sip".toList
    "alice;day=tuesday".toList "host.example".toList "5070".toList
    (by decide) (by decide) (by decide) (by decide) (by decide) (by decide) (by decide)
    (by decide) (by decide) (by decide)
  obtain ⟨r', g1, -, -, g4, -⟩ := parseURI_user_split netParseIP "sip".toList
    "alice".toList "host.example".toList "5070".toList
    (by decide) (by decide) (by decide) (by decide) (by decide) (by decide) (by decide)
    (by decide) (by decide) (by decide)
  exact ⟨⟨r, h1, h2, h3, h5 "alice".toList "day=tuesday".toList (by decide) (by decide)⟩,
    ⟨r', g1, g4 (by decide)⟩⟩

/-- C18: `SGAddrType` equals its reference definition `classifyRef`.  For every token `t`:
the result is `AFHost` exactly when `net.ParseIP` fails on `t`; when it succeeds, the
result is `AFIPv4` if the first of the bytes `.` and `:` in `t` is `.`, and `AFIPv6` if
it is `:`; the result is `AFNONE` exactly when `t` parses and holds neither byte, which
never happens when the IP-literal parser accepts only tokens holding a `.` or a `:`. -/
theorem SGAddrType_reference (parseIP : GoString → Bool) (t : GoString) :
    SGAddrType parseIP t = classifyRef parseIP t ∧
    (SGAddrType parseIP t = AFHost ↔ parseIP t = false) ∧
    (parseIP t = true →
      ∀ pre post, t = pre ++ ".".toList ++ post → '.' ∉ pre → ':' ∉ pre →
        SGAddrType parseIP t = AFIPv4) ∧
    (parseIP t = true →
      ∀ pre post, t = pre ++ ":".toList ++ post → '.' ∉ pre → ':' ∉ pre →
        SGAddrType parseIP t = AFIPv6) ∧
    (SGAddrType parseIP t = AFNONE ↔ parseIP t = true ∧ '.' ∉ t ∧ ':' ∉ t) ∧
    ((∀ u, parseIP u = true → '.' ∈ u ∨ ':' ∈ u) →
      SGAddrType parseIP t ≠ AFNONE) := by
  have hnone : SGAddrType parseIP t = AFNONE ↔ parseIP t = true ∧ '.' ∉ t ∧ ':' ∉ t := by
    unfold SGAddrType
    by_cases hp : parseIP t = false
    · simp [hp, AFHost, AFNONE]
    · have hp' : parseIP t = true := by simpa using hp
      simp [hp', addrTypeScan_none_iff]
  refine ⟨?_, ?_, ?_, ?_, hnone, ?_⟩
  · unfold SGAddrType classifyRef
    by_cases hp : parseIP t = false
    · simp [hp]
    · simp only [hp, if_false]
      exact addrTypeScan_eq_find t
  · unfold SGAddrType
    by_cases hp : parseIP t = false
    · simp [hp]
    · have hp' : parseIP t = true := by simpa using hp
      simp [hp', addrTypeScan_ne_host t]
  · intro hp pre post ht h1 h2
    have ht2 : t = pre ++ '.' :: post := by simpa using ht
    simp [SGAddrType, hp, ht2 ▸ addrTypeScan_first_dot pre post h1 h2]
  · intro hp pre post ht h1 h2
    have ht2 : t = pre ++ ':' :: post := by simpa using ht
    simp [SGAddrType, hp, ht2 ▸ addrTypeScan_first_colon pre post h1 h2]
  · intro hsep h
    obtain ⟨hp, h1, h2⟩ := hnone.mp h
    rcases hsep t hp with e | e
    · exact h1 e
    · exact h2 e

/-- C18 with `netParseIP`: the IPv4-mapped literal `::ffff:1.2.3.4` is `AFIPv6`, `1.2.3.4`
is `AFIPv4`, `host.example` is `AFHost`, and `AFNONE` is not returned. -/
theorem SGAddrType_reference_witness :
    SGAddrType netParseIP "::ffff:1.2.3.4".toList = AFIPv6 ∧
    SGAddrType netParseIP "1.2.3.4".toList = AFIPv4 ∧
    SGAddrType netParseIP "host.example".toList = AFHost ∧
    SGAddrType netParseIP "::ffff:1.2.3.4".toList ≠ AFNONE :=
  ⟨(SGAddrType_reference netParseIP "::ffff:1.2.3.4".toList).2.2.2.1 (by decide)
      [] ":ffff:1.2.3.4".toList (by decide) (by decide) (by decide),
   (SGAddrType_reference netParseIP "1.2.3.4".toList).2.2.1 (by decide)
      "1".toList "2.3.4".toList (by decide) (by decide) (by decide),
   (SGAddrType_reference netParseIP "host.example".toList).2.1.mpr (by decide),
   (SGAddrType_reference netParseIP "::ffff:1.2.3.4".toList).2.2.2.2.2 netParseIP_has_sep⟩

/-- C19 (a URI whose host part is only a bracketed IPv6 literal), evaluated on the code:
for every scheme spelling `S`, every valid IPv6 literal `A` (classified `AFIPv6` by
`SGAddrType`, no `@` in it) and every non-empty user `U` without `@` and `;`,
`SGSIPParseURI` on `S:[A]` and on `S:U@[A]` with the zero-valued record returns
`SGSIPRetErr`, as soon as `net.ParseIP` rejects the bracketed text `[A]` (it rejects every
text with a `[`).  Line 271 classifies `uri.addr` with its brackets, so `atype` is
`AFHost`; the defaults of lines 266-270 have been written by then. -/
theorem parseURI_bare_bracket_rejected (parseIP : GoString → Bool) (S U A : GoString)
    (hS : S ∈ schemeSpellings) (hU : U ≠ []) (hUat : '@' ∉ U) (hUsc : ';' ∉ U)
    (hA : SGAddrType parseIP A = AFIPv6) (hAat : '@' ∉ A)
    (hrej : parseIP ("[".toList ++ A ++ "]".toList) = false) :
    SGSIPParseURI parseIP (S ++ ":[".toList ++ A ++ "]".toList) emptyURI =
      some (SGSIPRetErr,
        { emptyURI with
          schema := lowerCase S, schemaid := schemaIdOf (lowerCase S),
          addr := "[".toList ++ A ++ "]".toList, proto := "udp".toList, protoid := ProtoUDP,
          port := "5060".toList, portno := 5060, atype := AFHost }) ∧
    SGSIPParseURI parseIP (S ++ ":".toList ++ U ++ "@[".toList ++ A ++ "]".toList) emptyURI =
      some (SGSIPRetErr,
        { emptyURI with
          schema := lowerCase S, schemaid := schemaIdOf (lowerCase S), user := U,
          addr := "[".toList ++ A ++ "]".toList, proto := "udp".toList, protoid := ProtoUDP,
          port := "5060".toList, portno := 5060, atype := AFHost }) := by
  have hcolA : ':' ∈ A := (SGAddrType_IPv6 parseIP A hA).2
  have hrej2 : parseIP ('[' :: (A ++ [']'])) = false := by simpa using hrej
  have hty : SGAddrType parseIP ('[' :: (A ++ [']'])) = AFHost := by simp [SGAddrType, hrej2]
  have hne : AFHost ≠ AFIPv6 := by decide
  constructor
  · have hin : S ++ ":[".toList ++ A ++ "]".toList = S ++ ':' :: ('[' :: (A ++ [']'])) := by
      simp
    have hat : '@' ∉ '[' :: (A ++ [']']) := by simp [hAat]
    have hnn : ¬ (Index ('[' :: (A ++ [']'])) [':'] < 0 ∧
        Index ('[' :: (A ++ [']'])) [';'] < 0) := by
      have := Index_singleton_nonneg ':' ('[' :: (A ++ [']'])) (by simp [hcolA])
      omega
    rw [hin, SGSIPParseURI_scheme _ _ _ _ hS, parseURIUser_no_user _ _ _ _ hat hnn,
      parseURIHost_wrapped _ _ _ _ _ _ hnn, hty, if_pos hne]
    simp [emptyURI]
  · have hin : S ++ ":".toList ++ U ++ "@[".toList ++ A ++ "]".toList =
        S ++ ':' :: (U ++ '@' :: ('[' :: (A ++ [']']))) := by simp
    have hnn : ¬ (Index (U ++ '@' :: ('[' :: (A ++ [']']))) [':'] < 0 ∧
        Index (U ++ '@' :: ('[' :: (A ++ [']']))) [';'] < 0) := by
      have := Index_singleton_nonneg ':' (U ++ '@' :: ('[' :: (A ++ [']']))) (by simp [hcolA])
      omega
    rw [hin, SGSIPParseURI_scheme _ _ _ _ hS, parseURIUser_plain _ _ _ _ _ hU hUat hUsc,
      parseURIHost_wrapped _ _ _ _ _ _ hnn, hty, if_pos hne]
    simp [emptyURI]

/-- C19 at `sip:[::1]` and `sip:alice@[::1]`: `::1` is an IPv6 literal for `SGAddrType`,
and both calls return `SGSIPRetErr`. -/
theorem parseURI_bare_bracket_rejected_witness :
    SGAddrType netParseIP "::1".toList = AFIPv6 ∧
    SGSIPParseURI netParseIP "sip:[::1]".toList emptyURI =
      some (SGSIPRetErr,
        { emptyURI with
          schema := "sip".toList, schemaid := SchemaSIP,
          addr := "[::1]".toList, proto := "udp".toList, protoid := ProtoUDP,
          port := "5060".toList, portno := 5060, atype := AFHost }) ∧
    SGSIPParseURI netParseIP "sip:alice@[::1]".toList emptyURI =
      some (SGSIPRetErr,
        { emptyURI with
          schema := "sip".toList, schemaid := SchemaSIP, user := "alice".toList,
          addr := "[::1]".toList, proto := "udp".toList, protoid := ProtoUDP,
          port := "5060".toList, portno := 5060, atype := AFHost }) :=
  ⟨by decide,
    parseURI_bare_bracket_rejected netParseIP "sip".toList "alice".toList "::1".toList
      (by decide) (by decide) (by decide) (by decide) (by decide) (by decide) (by decide)⟩

/-- C20, as stated, fails in one part: `net.ParseIP` (as rendered by `netParseIP`) rejects
the empty string and every text that starts with `[`, yet `SGSIPParseSocketAddress` on
`[abc` with the zero-valued record returns `SGSIPRetOK` with an `addr` that starts with
`[`: an input without `:` that does not end in `]` is taken as a bare host name. -/
theorem parseSocketAddress_accepts_open_bracket :
    netParseIP [] = false ∧ (∀ s, netParseIP ('[' :: s) = false) ∧
    SGSIPParseSocketAddress netParseIP "[abc".toList emptySocketAddress =
      some (SGSIPRetOK,
        { val := "[abc".toList, proto := "udp".toList, addr := "[abc".toList,
          port := "5060".toList, portno := 5060, atype := AFHost, protoid := ProtoUDP }) ∧
    ("[abc".toList).head? = some '[' :=
  ⟨netParseIP_nil, netParseIP_bracket, rfl, rfl⟩

/-- C20, amended: assume `net.ParseIP` rejects the empty string and every text that starts
with `[`.  Whenever `SGSIPParseSocketAddress`, called with the zero-valued record, returns
`SGSIPRetOK`: `atype` is not `AFIPv6` but one of `AFHost`, `AFIPv4`, `AFNONE`; `addr` holds
no `:`; an input that starts with `[` holds no `:` and does not end in `]` (it is then
taken whole as a bare host name, the one case in which `addr` starts with `[`); and after
a known protocol spelling and `:` the rest of the input does not start with `[`.  So no
input `[A]`, `[A]:port` or `P:[A]:port` with an IPv6 literal `A` is accepted. -/
theorem parseSocketAddress_never_ipv6 (parseIP : GoString → Bool)
    (hnil : parseIP [] = false) (hbr : ∀ s, parseIP ('[' :: s) = false)
    (s : GoString) (r : SGSIPSocketAddress)
    (h : SGSIPParseSocketAddress parseIP s emptySocketAddress = some (SGSIPRetOK, r)) :
    r.atype ≠ AFIPv6 ∧ (r.atype = AFHost ∨ r.atype = AFIPv4 ∨ r.atype = AFNONE) ∧
    ':' ∉ r.addr ∧
    (s.head? = some '[' → ':' ∉ s ∧ s.getLast? ≠ some ']' ∧ r.addr = s) ∧
    (r.addr.head? = some '[' → r.addr = s) ∧
    (∀ P ∈ protoSpellings, ∀ rest, s = P ++ ":".toList ++ rest →
      rest.head? ≠ some '[') ∧
    (∀ A X, ':' ∈ A → s ≠ "[".toList ++ A ++ "]".toList ++ X) ∧
    (∀ P ∈ protoSpellings, ∀ A X, s ≠ P ++ ":[".toList ++ A ++ "]".toList ++ X) := by
  have core : r.atype ≠ AFIPv6 ∧
      (r.atype = AFHost ∨ r.atype = AFIPv4 ∨ r.atype = AFNONE) ∧ ':' ∉ r.addr ∧
      (s.head? = some '[' → ':' ∉ s ∧ s.getLast? ≠ some ']' ∧ r.addr = s) ∧
      (r.addr.head? = some '[' → r.addr = s) ∧
      (∀ P ∈ protoSpellings, ∀ rest, s = P ++ ":".toList ++ rest →
        rest.head? ≠ some '[') := by
    have hne : s ≠ [] := by
      rintro rfl
      simp [SGSIPParseSocketAddress, slice] at h
    by_cases hwrap : s.head? = some '[' ∧ s.getLast? = some ']'
    · obtain ⟨B, rfl⟩ := wrapped_shape s hwrap.1 hwrap.2
      rw [SGSIPParseSocketAddress_wrapped] at h
      have hty : SGAddrType parseIP emptySocketAddress.addr = AFHost := by
        simp [SGAddrType, emptySocketAddress, hnil]
      have hne6 : AFHost ≠ AFIPv6 := by decide
      rw [hty, if_pos hne6] at h
      simp [SGSIPRetOK, SGSIPRetErr] at h
    · rw [SGSIPParseSocketAddress_not_wrapped parseIP s _ hne hwrap] at h
      rcases first_occurrence ':' s with hno | ⟨pre, rest, rfl, hpre⟩
      · rw [SplitN2_of_not_mem ':' s hno] at h
        simp at h
        subst h
        have hA := SGAddrType_no_colon parseIP s hno
        refine ⟨hA.1, hA.2, hno, fun hh => ⟨hno, fun hl => hwrap ⟨hh, hl⟩, rfl⟩,
          fun _ => rfl, ?_⟩
        intro P _ rest hs
        exact absurd (by rw [hs]; simp) hno
      · rw [SplitN2_append ':' pre rest hpre] at h
        simp only [List.length_cons, List.length_nil] at h
        simp at h
        by_cases hmem : pre ∈ protoSpellings
        · obtain ⟨⟨c, t, hct, hc⟩, -, -, hset⟩ := protoSpelling_facts pre hmem
          simp [hset, SGSIPRetOK] at h
          obtain ⟨hhead, H, X, hX, hH, hHb, ha, hty⟩ :=
            parseSocketAddrPort_ok_inv parseIP hbr _ _ _ _ _ h
          have hA := SGAddrType_no_colon parseIP H hH
          rw [ha, hty]
          refine ⟨hA.1, hA.2, hH, ?_, fun hh => absurd hh hHb, ?_⟩
          · intro hh
            rw [hct] at hh
            simp at hh
            exact absurd hh hc
          · intro P hP rest' hs
            have hPc := (protoSpelling_facts P hP).2.1
            have hs2 : pre ++ ':' :: rest = P ++ ':' :: rest' := by simpa using hs
            obtain ⟨-, e2⟩ := first_occurrence_unique ':' pre P rest rest' hs2 hpre hPc
            rw [← e2]
            exact hhead
        · have hset := SGSIPSetProto_of_not_mem pre emptySocketAddress.proto
            emptySocketAddress.protoid hmem
          simp [hset, SGSIPRetOK, SGSIPRetErr] at h
          obtain ⟨hhead, H, X, hX, hH, hHb, ha, hty⟩ :=
            parseSocketAddrPort_ok_inv parseIP hbr _ _ _ _ _ h
          have hA := SGAddrType_no_colon parseIP H hH
          rw [ha, hty]
          refine ⟨hA.1, hA.2, hH, fun hh => absurd hh hhead, fun hh => absurd hh hHb, ?_⟩
          intro P hP rest' hs
          have hPc := (protoSpelling_facts P hP).2.1
          have hs2 : pre ++ ':' :: rest = P ++ ':' :: rest' := by simpa using hs
          obtain ⟨e1, -⟩ := first_occurrence_unique ':' pre P rest rest' hs2 hpre hPc
          exact absurd (e1 ▸ hP) hmem
  obtain ⟨c1, c2, c3, c4, c5, c6⟩ := core
  refine ⟨c1, c2, c3, c4, c5, c6, ?_, ?_⟩
  · intro A X hA hs
    have h1 : s.head? = some '[' := by rw [hs]; simp
    have h2 := (c4 h1).1
    exact h2 (by rw [hs]; simp [hA])
  · intro P hP A X hs
    have := c6 P hP ("[".toList ++ A ++ "]".toList ++ X) (by rw [hs]; simp)
    simp at this

/-- C20 amended, with `netParseIP`, at `1.2.3.4:5070` (accepted, `atype = AFIPv4`) and at
`[abc` (accepted as a bare host name, the input holding no `:` and not ending in `]`). -/
theorem parseSocketAddress_never_ipv6_witness :
    (∃ r, SGSIPParseSocketAddress netParseIP "1.2.3.4:5070".toList emptySocketAddress =
        some (SGSIPRetOK, r) ∧
      r.atype ≠ AFIPv6 ∧ ':' ∉ r.addr) ∧
    (∃ r, SGSIPParseSocketAddress netParseIP "[abc".toList emptySocketAddress =
        some (SGSIPRetOK, r) ∧
      r.atype ≠ AFIPv6 ∧ ':' ∉ "[abc".toList ∧ ("[abc".toList).getLast? ≠ some ']' ∧
      r.addr = "[abc".toList) :=
  have h1 := parseSocketAddress_never_ipv6 netParseIP netParseIP_nil netParseIP_bracket
    "1.2.3.4:5070".toList
    { val := "1.2.3.4:5070".toList, proto := "udp".toList, addr := "1.2.3.4".toList,
      port := "5070".toList, portno := 5070, atype := AFIPv4, protoid := ProtoUDP } rfl
  have h2 := parseSocketAddress_never_ipv6 netParseIP netParseIP_nil netParseIP_bracket
    "[abc".toList
    { val := "[abc".toList, proto := "udp".toList, addr := "[abc".toList,
      port := "5060".toList, portno := 5060, atype := AFHost, protoid := ProtoUDP } rfl
  ⟨⟨_, rfl, h1.1, h1.2.2.1⟩,
   ⟨_, rfl, h2.1, (h2.2.2.2.1 rfl).1, (h2.2.2.2.1 rfl).2.1, (h2.2.2.2.1 rfl).2.2⟩⟩

end Sgsip
